/-
  Verification of the chat session/adapter/decoder core of lingo-link-rev.

  The development shallowly embeds the vendor adapter classes
  (`OpenAIClass`, `MoonShotClass`, `DeepSeekClass`, `CustomAIClass`,
  `WenxinClass`, `GeminiClass`), the shared utilities `handleStream` and
  `formateMessage`, the Gemini growing-array decoder `tryParse`, and the
  engine selector `getChat`.  Stateful TypeScript methods become pure
  functions from an explicit environment (persisted settings, the HTTP
  response, the delivered stream frames, the cancellation schedule) and an
  explicit session state to a result record that collects the final message
  list, the issued request (if any) and the ordered list of observer
  callback invocations.
-/
import Mathlib

set_option maxRecDepth 4000

/-! ## JavaScript value model

`JSON.parse` results and the callback arguments the adapters pass around are
modelled by a small JSON value type.  JavaScript `undefined` produced by a
missing property is modelled by `Option.none` at each access site. -/

inductive Json where
  | null
  | bool (b : Bool)
  | num (n : Int)
  | str (s : String)
  | arr (elems : List Json)
  | obj (fields : List (String × Json))

/-- Association-list lookup used for JavaScript property access on objects. -/
def lookupField : List (String × Json) → String → Option Json
  | [], _ => none
  | (k, v) :: rest, key => if k = key then some v else lookupField rest key

/-- JavaScript property access `j.key`: `none` models `undefined`
(the property is absent or the value is not an object). -/
def Json.getField : Json → String → Option Json
  | .obj fields, key => lookupField fields key
  | _, _ => none

/-- JavaScript truthiness of a value: `null`, `false`, `0` and `""` are
falsy, every array and object is truthy. -/
def Json.truthy : Json → Bool
  | .null => false
  | .bool b => b
  | .num n => n != 0
  | .str s => s != ""
  | .arr _ => true
  | .obj _ => true

/-! ## JSON.parse

A recursive-descent parser over the character list of the input, with the
input length as fuel.  It covers the grammar actually exchanged on the wire
(objects, arrays, strings with quote/backslash escapes, integers, `true`,
`false`, `null`); `none` models `JSON.parse` throwing a `SyntaxError`. -/

namespace JSON

def quoteChar : Char := Char.ofNat 34
def backslashChar : Char := Char.ofNat 92
def lbraceChar : Char := Char.ofNat 123
def rbraceChar : Char := Char.ofNat 125

def isWsChar (c : Char) : Bool :=
  c = ' ' || c = Char.ofNat 10 || c = Char.ofNat 9 || c = Char.ofNat 13

def skipWs : List Char → List Char
  | [] => []
  | c :: cs => if isWsChar c then skipWs cs else c :: cs

/-- Parse the body of a string literal (the opening quote already
consumed), accumulating characters until the closing quote. -/
def parseStringAux : List Char → List Char → Option (String × List Char)
  | _, [] => none
  | acc, c :: cs =>
    if c = quoteChar then some (⟨acc.reverse⟩, cs)
    else if c = backslashChar then
      match cs with
      | [] => none
      | e :: cs2 =>
        if e = quoteChar then parseStringAux (quoteChar :: acc) cs2
        else if e = backslashChar then parseStringAux (backslashChar :: acc) cs2
        else none
    else parseStringAux (c :: acc) cs

/-- Consume a maximal run of decimal digits. -/
def parseDigitsAux : Nat → List Char → Nat × List Char
  | acc, [] => (acc, [])
  | acc, c :: cs =>
    if c.isDigit then parseDigitsAux (acc * 10 + (c.toNat - 48)) cs
    else (acc, c :: cs)

mutual

def parseValue : Nat → List Char → Option (Json × List Char)
  | 0, _ => none
  | fuel + 1, cs =>
    match skipWs cs with
    | [] => none
    | c :: rest =>
      if c = quoteChar then
        (parseStringAux [] rest).map fun p => (Json.str p.1, p.2)
      else if c = '[' then
        (parseArrayItems fuel rest).map fun p => (Json.arr p.1, p.2)
      else if c = lbraceChar then
        (parseObjItems fuel rest).map fun p => (Json.obj p.1, p.2)
      else if c = 't' then
        if ['r', 'u', 'e'].isPrefixOf rest then some (Json.bool true, rest.drop 3)
        else none
      else if c = 'f' then
        if ['a', 'l', 's', 'e'].isPrefixOf rest then some (Json.bool false, rest.drop 4)
        else none
      else if c = 'n' then
        if ['u', 'l', 'l'].isPrefixOf rest then some (Json.null, rest.drop 3)
        else none
      else if c = '-' then
        match rest with
        | d :: _ =>
          if d.isDigit then
            let p := parseDigitsAux 0 rest
            some (Json.num (-(p.1 : Int)), p.2)
          else none
        | [] => none
      else if c.isDigit then
        let p := parseDigitsAux 0 (c :: rest)
        some (Json.num (p.1 : Int), p.2)
      else none

/-- Items of an array, the opening bracket already consumed. -/
def parseArrayItems : Nat → List Char → Option (List Json × List Char)
  | 0, _ => none
  | fuel + 1, cs =>
    match skipWs cs with
    | ']' :: rest => some ([], rest)
    | cs2 =>
      match parseValue fuel cs2 with
      | none => none
      | some (v, r) =>
        match skipWs r with
        | ',' :: r2 =>
          match parseArrayItems fuel r2 with
          | none => none
          | some (vs, r3) => some (v :: vs, r3)
        | ']' :: r2 => some ([v], r2)
        | _ => none

/-- Members of an object, the opening brace already consumed. -/
def parseObjItems : Nat → List Char → Option (List (String × Json) × List Char)
  | 0, _ => none
  | fuel + 1, cs =>
    match skipWs cs with
    | [] => none
    | c :: rest =>
      if c = rbraceChar then some ([], rest)
      else if c = quoteChar then
        match parseStringAux [] rest with
        | none => none
        | some (k, r) =>
          match skipWs r with
          | ':' :: r2 =>
            match parseValue fuel r2 with
            | none => none
            | some (v, r3) =>
              match skipWs r3 with
              | ',' :: r4 =>
                match parseObjItems fuel r4 with
                | none => none
                | some (kvs, r5) => some ((k, v) :: kvs, r5)
              | c2 :: r4 => if c2 = rbraceChar then some ([(k, v)], r4) else none
              | [] => none
          | _ => none
      else none

end

/-- `JSON.parse`: `none` models the JavaScript call throwing. -/
def parse (s : String) : Option Json :=
  match parseValue (s.length + 1) s.data with
  | some (j, r) => if skipWs r = [] then some j else none
  | none => none

end JSON

/-! ## Conversation data model -/

/-- `Message` from `src/types/chat` (`{role, content, isError?}`). -/
inductive Role where
  | system
  | user
  | assistant
deriving DecidableEq

structure Message where
  role : Role
  content : String
  isError : Option Bool
deriving DecidableEq

/-- One observer-callback or toast-sink invocation, in call order. -/
inductive CallbackArg where
  | str (s : String)
  | json (j : Json)

inductive Event where
  | onBeforeRequest
  | toastError (msg : Json)
  | onError (arg : CallbackArg)
  | onGenerating (text : String)
  | onComplete (text : String)
  | onClear

def Event.isComplete : Event → Bool
  | .onComplete _ => true
  | _ => false

def Event.isOnError : Event → Bool
  | .onError _ => true
  | _ => false

def Event.isOnGenerating : Event → Bool
  | .onGenerating _ => true
  | _ => false

/-- The persisted settings read through `getSetting()`; fields absent from
storage are `none` (JavaScript `undefined`). -/
structure Setting where
  openAIAddress : Option String
  openAIKey : Option String
  openAIModel : Option String
  geminiKey : Option String
  wenxinToken : Option String
  moonShotKey : Option String
  deepSeekApiKey : Option String
  customAIAddress : Option String
  customAIModel : Option String

def Setting.empty : Setting := ⟨none, none, none, none, none, none, none, none, none⟩

def defaultSetting.openAIAddress : String := "https://api.openai.com/v1/chat/completions"
def defaultSetting.openAIModel : String := "gpt-4o"

/-- The nullish-coalescing chain `a ?? b` on possibly-undefined values. -/
def firstSome {α : Type} : Option α → Option α → Option α
  | some x, _ => some x
  | none, b => b

/-- A session object's mutable state: the `AbortController`'s tripped flag
and the owned `messageList`. -/
structure ChatSession where
  aborted : Bool
  messageList : List Message

/-- The environment's answer to the streaming `fetch`:
either a non-success response carrying the JSON error body, or a successful
streaming body.  For the SSE adapters `frames` are the decoded `data:`
frame payloads delivered by the event-stream decoder in arrival order; for
`GeminiClass` they are the raw text chunks of the body.  `abortedDuring`
records that `abort()` tripped the cancellation token after the listed
frames, so the next pending read fails with an `AbortError` instead of
delivering more data. -/
inductive HttpResponse where
  | failure (body : Json)
  | stream (frames : List String) (abortedDuring : Bool)

/-- Result of one `sendMessage`/`refresh` call: the session state it leaves
behind, the callback/toast invocations in order, and the issued network
request (`none` when the call short-circuited before any I/O). -/
structure SendOutcome (Req : Type) where
  messageList : List Message
  aborted : Bool
  events : List Event
  request : Option Req

/-! ## Shared helpers translated from `src/utils` -/

/-- `content && this.messageList.push({role: 'user', content})`: the user
turn is appended only when `content` is a truthy string (supplied and
non-empty). -/
def pushUserContent (ms : List Message) (content : Option String) : List Message :=
  match content with
  | some c => if c = "" then ms else ms ++ [⟨Role.user, c, none⟩]
  | none => ms

/-- The per-delta update every SSE adapter performs on its message list:
`messageList.map((message, index) => index === messageList.length - 1 ?
{...message, content: message.content + text} : message)`. -/
def updateLast (ms : List Message) (text : String) : List Message :=
  ms.mapIdx fun index message =>
    if index = ms.length - 1 then { message with content := message.content ++ text }
    else message

/-- `GeminiClass`'s variant, which replaces the last content with the
cumulative `result` instead of appending. -/
def setLast (ms : List Message) (result : String) : List Message :=
  ms.mapIdx fun index message =>
    if index = ms.length - 1 then { message with content := result }
    else message

/-- `handleStream` (from `src/utils`): feeds each decoded SSE `data:`
payload to the adapter's callback in arrival order.  A callback that
returns `none` threw a JavaScript exception; `handleStream` is invoked
without `await`, so the exception only rejects its promise and no further
frame is processed. -/
def handleStream {σ : Type} (onData : σ → String → Option σ) (st : σ) : List String → σ
  | [] => st
  | d :: ds =>
    match onData st d with
    | none => st
    | some st2 => handleStream onData st2 ds

/-- `formateMessage` (from `src/utils`, part of the shared helpers): for the
`wenxin` engine every `system` role is rewritten to `user`; the returned
objects are rebuilt from `role` and `content` only. -/
def formateMessage (engine : String) (messages : List Message) : List Message :=
  if engine = "wenxin" then
    messages.map fun item =>
      ⟨if item.role = Role.system then Role.user else item.role, item.content, none⟩
  else messages

/-- Callback argument for sites that pass `x.message` through, where the
property may be absent (`undefined`). -/
def argOfField : Option Json → CallbackArg
  | some (Json.str s) => .str s
  | some j => .json j
  | none => .json Json.null

/-! ## `OpenAIClass` (`src/src/api/openAI.tsx`) -/

/-- The `settingConfig` override bag `Pick<Setting, openAIAddress | openAIKey | openAIModel>`. -/
structure OpenAISettingConfig where
  openAIAddress : Option String
  openAIKey : Option String
  openAIModel : Option String

/-- The issued streaming request: URL, bearer key, and the JSON body
`{model, messages, stream: true}`. -/
structure OpenAIRequest where
  url : String
  apiKey : String
  model : String
  messages : List Message
deriving DecidableEq

/-- Closure state of `sendMessage` while the stream is being pumped:
the cumulative `result`, `this.messageList`, and the calls made so far. -/
structure StreamState where
  result : String
  messageList : List Message
  events : List Event

namespace OpenAIClass

/-- The `handleStream` callback of `OpenAIClass.sendMessage`
(src/src/api/openAI.tsx:107-128).  `none` models a JavaScript exception
escaping the callback (`JSON.parse` failure or a `TypeError` while reading
`json.choices[0].delta.content`). -/
def onData (st : StreamState) (data : String) : Option StreamState :=
  if data ≠ "[DONE]" then
    match JSON.parse data with
    | none => none
    | some json =>
      if ((json.getField "error").getD Json.null).truthy then
        let err := (json.getField "error").getD Json.null
        some { st with events := st.events ++
          [.toastError ((err.getField "message").getD Json.null), .onError (.json err)] }
      else
        match json.getField "choices" with
        | some (Json.arr (c0 :: _)) =>
          match c0.getField "delta" with
          | some delta =>
            let text := match delta.getField "content" with
              | some (Json.str s) => s
              | _ => ""
            let result := st.result ++ text
            some ⟨result, updateLast st.messageList text,
              st.events ++ [.onGenerating result]⟩
          | none => none
        | _ => none
  else
    match st.messageList.getLast? with
    | some m => some { st with events := st.events ++ [.onComplete m.content] }
    | none => none

/-- `OpenAIClass.sendMessage` (src/src/api/openAI.tsx:68-133).  The
`content && push` / placeholder push / `slice(0, -1)` body construction,
the `??`-chains over `settingConfig`, the persisted setting and
`defaultSetting`, the `!apiKey` short-circuit, and the non-success and
streaming branches are translated clause by clause. -/
def sendMessage (settingConfig : Option OpenAISettingConfig) (setting : Setting)
    (resp : HttpResponse) (sess : ChatSession) (content : Option String) :
    SendOutcome OpenAIRequest :=
  let ev0 : List Event := [.onBeforeRequest]
  let url := (firstSome (settingConfig.bind (·.openAIAddress)) setting.openAIAddress).getD
    defaultSetting.openAIAddress
  let model := (firstSome (settingConfig.bind (·.openAIModel)) setting.openAIModel).getD
    defaultSetting.openAIModel
  let apiKey := firstSome (settingConfig.bind (·.openAIKey)) setting.openAIKey
  if apiKey.getD "" = "" then
    ⟨sess.messageList, false, ev0 ++ [.onError (.str "apiKey is empty")], none⟩
  else
    let ml2 := pushUserContent sess.messageList content ++ [⟨Role.assistant, "", none⟩]
    let req : OpenAIRequest := ⟨url, apiKey.getD "", model, ml2.dropLast⟩
    match resp with
    | .failure body =>
      match body.getField "error" with
      | none =>
        -- `json.error.message` threw; the surrounding catch reports the failure
        ⟨ml2, false, ev0 ++ [.onError (.str "request failed")], some req⟩
      | some Json.null =>
        ⟨ml2, false, ev0 ++ [.onError (.str "request failed")], some req⟩
      | some err =>
        let toastEv := if ((err.getField "message").getD Json.null).truthy
          then [Event.toastError ((err.getField "message").getD Json.null)] else []
        ⟨ml2, false, ev0 ++ toastEv ++ [.onError (.json err)], some req⟩
    | .stream frames abortedDuring =>
      let fin := handleStream onData ⟨"", ml2, ev0⟩ frames
      ⟨fin.messageList, abortedDuring, fin.events, some req⟩

/-- `OpenAIClass.refresh` (src/src/api/openAI.tsx:145-148): drop the last
message and replay the remaining history with `sendMessage()`. -/
def refresh (settingConfig : Option OpenAISettingConfig) (setting : Setting)
    (resp : HttpResponse) (sess : ChatSession) : SendOutcome OpenAIRequest :=
  sendMessage settingConfig setting resp
    { sess with messageList := sess.messageList.dropLast } none

end OpenAIClass

/-! ## `MoonShotClass` (second class in `src/src/api/gemini.ts`'s file group) -/

namespace MoonShotClass

/-- The `handleStream` callback of `MoonShotClass.sendMessage`.  On an
inline error frame it calls `onError` twice: first with
`json.error.message`, then with `json.error` itself; otherwise it is the
generic delta handler. -/
def onData (st : StreamState) (data : String) : Option StreamState :=
  if data ≠ "[DONE]" then
    match JSON.parse data with
    | none => none
    | some json =>
      if ((json.getField "error").getD Json.null).truthy then
        let err := (json.getField "error").getD Json.null
        some { st with events := st.events ++
          [.onError (argOfField (err.getField "message")), .onError (.json err)] }
      else
        match json.getField "choices" with
        | some (Json.arr (c0 :: _)) =>
          match c0.getField "delta" with
          | some delta =>
            let text := match delta.getField "content" with
              | some (Json.str s) => s
              | _ => ""
            let result := st.result ++ text
            some ⟨result, updateLast st.messageList text,
              st.events ++ [.onGenerating result]⟩
          | none => none
        | _ => none
  else
    match st.messageList.getLast? with
    | some m => some { st with events := st.events ++ [.onComplete m.content] }
    | none => none

/-- `MoonShotClass.sendMessage`: fixed MoonShot URL and model, key from
`setting.moonShotKey`; on a non-success response only
`onError(json.error?.message)` fires, and only when that message is
truthy. -/
def sendMessage (setting : Setting) (resp : HttpResponse) (sess : ChatSession)
    (content : Option String) : SendOutcome OpenAIRequest :=
  let ev0 : List Event := [.onBeforeRequest]
  let url := "https://api.moonshot.cn/v1/chat/completions"
  let model := "moonshot-v1-8k"
  let apiKey := setting.moonShotKey
  if apiKey.getD "" = "" then
    ⟨sess.messageList, false, ev0 ++ [.onError (.str "MoonShot API密钥为空")], none⟩
  else
    let ml2 := pushUserContent sess.messageList content ++ [⟨Role.assistant, "", none⟩]
    let req : OpenAIRequest := ⟨url, apiKey.getD "", model, ml2.dropLast⟩
    match resp with
    | .failure body =>
      let msgField := ((body.getField "error").getD Json.null).getField "message"
      let ev1 := if (msgField.getD Json.null).truthy
        then [Event.onError (argOfField msgField)] else []
      ⟨ml2, false, ev0 ++ ev1, some req⟩
    | .stream frames abortedDuring =>
      let fin := handleStream onData ⟨"", ml2, ev0⟩ frames
      ⟨fin.messageList, abortedDuring, fin.events, some req⟩

/-- `MoonShotClass.refresh`: drop the last message and replay. -/
def refresh (setting : Setting) (resp : HttpResponse) (sess : ChatSession) :
    SendOutcome OpenAIRequest :=
  sendMessage setting resp { sess with messageList := sess.messageList.dropLast } none

end MoonShotClass

/-! ## `DeepSeekClass` (`src/unnamed/part_005`) -/

namespace DeepSeekClass

/-- The `handleStream` callback of `DeepSeekClass.sendMessage`; identical
to the generic handler (toast plus `onError(json.error)` on an inline
error frame). -/
def onData (st : StreamState) (data : String) : Option StreamState :=
  if data ≠ "[DONE]" then
    match JSON.parse data with
    | none => none
    | some json =>
      if ((json.getField "error").getD Json.null).truthy then
        let err := (json.getField "error").getD Json.null
        some { st with events := st.events ++
          [.toastError ((err.getField "message").getD Json.null), .onError (.json err)] }
      else
        match json.getField "choices" with
        | some (Json.arr (c0 :: _)) =>
          match c0.getField "delta" with
          | some delta =>
            let text := match delta.getField "content" with
              | some (Json.str s) => s
              | _ => ""
            let result := st.result ++ text
            some ⟨result, updateLast st.messageList text,
              st.events ++ [.onGenerating result]⟩
          | none => none
        | _ => none
  else
    match st.messageList.getLast? with
    | some m => some { st with events := st.events ++ [.onComplete m.content] }
    | none => none

/-- `DeepSeekClass.sendMessage`: fixed DeepSeek URL and model, key from
`settingConfig?.deepSeekApiKey ?? setting.deepSeekApiKey`. -/
def sendMessage (settingConfigKey : Option String) (setting : Setting)
    (resp : HttpResponse) (sess : ChatSession) (content : Option String) :
    SendOutcome OpenAIRequest :=
  let ev0 : List Event := [.onBeforeRequest]
  let url := "https://api.deepseek.com/chat/completions"
  let model := "deepseek-chat"
  let apiKey := firstSome settingConfigKey setting.deepSeekApiKey
  if apiKey.getD "" = "" then
    ⟨sess.messageList, false, ev0 ++ [.onError (.str "DeepSeek API密钥为空")], none⟩
  else
    let ml2 := pushUserContent sess.messageList content ++ [⟨Role.assistant, "", none⟩]
    let req : OpenAIRequest := ⟨url, apiKey.getD "", model, ml2.dropLast⟩
    match resp with
    | .failure body =>
      let errField := body.getField "error"
      let msgField := (errField.getD Json.null).getField "message"
      let ev1 := if (msgField.getD Json.null).truthy
        then [Event.toastError (msgField.getD Json.null)] else []
      ⟨ml2, false, ev0 ++ ev1 ++ [.onError (.json (errField.getD Json.null))], some req⟩
    | .stream frames abortedDuring =>
      let fin := handleStream onData ⟨"", ml2, ev0⟩ frames
      ⟨fin.messageList, abortedDuring, fin.events, some req⟩

/-- `DeepSeekClass.refresh`: drop the last message and replay. -/
def refresh (settingConfigKey : Option String) (setting : Setting)
    (resp : HttpResponse) (sess : ChatSession) : SendOutcome OpenAIRequest :=
  sendMessage settingConfigKey setting resp
    { sess with messageList := sess.messageList.dropLast } none

end DeepSeekClass

/-! ## `CustomAIClass` (`src/src/api/customAI.tsx`) -/

/-- The custom endpoint's request: configurable URL, optional model, no
auth header. -/
structure CustomAIRequest where
  url : String
  model : Option String
  messages : List Message
deriving DecidableEq

namespace CustomAIClass

/-- The `handleStream` callback of `CustomAIClass.sendMessage`; textually
the generic handler. -/
def onData (st : StreamState) (data : String) : Option StreamState :=
  if data ≠ "[DONE]" then
    match JSON.parse data with
    | none => none
    | some json =>
      if ((json.getField "error").getD Json.null).truthy then
        let err := (json.getField "error").getD Json.null
        some { st with events := st.events ++
          [.toastError ((err.getField "message").getD Json.null), .onError (.json err)] }
      else
        match json.getField "choices" with
        | some (Json.arr (c0 :: _)) =>
          match c0.getField "delta" with
          | some delta =>
            let text := match delta.getField "content" with
              | some (Json.str s) => s
              | _ => ""
            let result := st.result ++ text
            some ⟨result, updateLast st.messageList text,
              st.events ++ [.onGenerating result]⟩
          | none => none
        | _ => none
  else
    match st.messageList.getLast? with
    | some m => some { st with events := st.events ++ [.onComplete m.content] }
    | none => none

/-- `CustomAIClass.sendMessage`: short-circuits with only a toast
(`url is empty`) when `setting.customAIAddress` is missing or empty;
no `onError` call on that path. -/
def sendMessage (setting : Setting) (resp : HttpResponse) (sess : ChatSession)
    (content : Option String) : SendOutcome CustomAIRequest :=
  let ev0 : List Event := [.onBeforeRequest]
  if (setting.customAIAddress.getD "") = "" then
    ⟨sess.messageList, false, ev0 ++ [.toastError (.str "url is empty")], none⟩
  else
    let url := setting.customAIAddress.getD ""
    let model := setting.customAIModel
    let ml2 := pushUserContent sess.messageList content ++ [⟨Role.assistant, "", none⟩]
    let req : CustomAIRequest := ⟨url, model, ml2.dropLast⟩
    match resp with
    | .failure body =>
      match body.getField "error" with
      | none => ⟨ml2, false, ev0 ++ [.onError (.str "request failed")], some req⟩
      | some Json.null => ⟨ml2, false, ev0 ++ [.onError (.str "request failed")], some req⟩
      | some err =>
        let toastEv := if ((err.getField "message").getD Json.null).truthy
          then [Event.toastError ((err.getField "message").getD Json.null)] else []
        ⟨ml2, false, ev0 ++ toastEv ++ [.onError (.json err)], some req⟩
    | .stream frames abortedDuring =>
      let fin := handleStream onData ⟨"", ml2, ev0⟩ frames
      ⟨fin.messageList, abortedDuring, fin.events, some req⟩

/-- `CustomAIClass.refresh`: drop the last message and replay. -/
def refresh (setting : Setting) (resp : HttpResponse) (sess : ChatSession) :
    SendOutcome CustomAIRequest :=
  sendMessage setting resp { sess with messageList := sess.messageList.dropLast } none

end CustomAIClass

/-! ## `WenxinClass` (`src/src/api/wenxin.ts`) -/

/-- The ERNIE request: token-bearing URL and body `{messages, stream: true}`. -/
structure WenxinRequest where
  url : String
  messages : List Message
deriving DecidableEq

namespace WenxinClass

/-- The `handleStream` callback of `WenxinClass.sendMessage`
(src/src/api/wenxin.ts:127-155): no `[DONE]` sentinel; the delta is
`json.result || ''` and termination is the per-frame `is_end` flag,
checked after the delta of that same frame has been applied. -/
def onData (st : StreamState) (data : String) : Option StreamState :=
  match JSON.parse data with
  | none => none
  | some json =>
    if ((json.getField "error").getD Json.null).truthy then
      let err := (json.getField "error").getD Json.null
      some { st with events := st.events ++
        [.toastError ((err.getField "message").getD Json.null), .onError (.json err)] }
    else
      let text := match json.getField "result" with
        | some (Json.str s) => s
        | _ => ""
      let result := st.result ++ text
      let ml := updateLast st.messageList text
      let ev := st.events ++ [.onGenerating result]
      if ((json.getField "is_end").getD Json.null).truthy then
        match ml.getLast? with
        | some m => some ⟨result, ml, ev ++ [.onComplete m.content]⟩
        | none => none
      else some ⟨result, ml, ev⟩

/-- `WenxinClass.sendMessage` (src/src/api/wenxin.ts:70-159).  The missing
token short-circuits with only a toast; on the success path the *stored*
`this.messageList` is reassigned to `formateMessage('wenxin', ...)` before
the request body is built from its `slice(0, -1)`. -/
def sendMessage (setting : Setting) (resp : HttpResponse) (sess : ChatSession)
    (content : Option String) : SendOutcome WenxinRequest :=
  let token := setting.wenxinToken
  if token.getD "" = "" then
    ⟨sess.messageList, false, [.toastError (.str "文心一言AccessToken为空")], none⟩
  else
    let url := "https://aip.baidubce.com/rpc/2.0/ai_custom/v1/wenxinworkshop/chat/ernie_bot_8k?access_token="
      ++ token.getD ""
    let ml2 := pushUserContent sess.messageList content ++ [⟨Role.assistant, "", none⟩]
    let ml3 := formateMessage "wenxin" ml2
    let ev0 : List Event := [.onBeforeRequest]
    let req : WenxinRequest := ⟨url, ml3.dropLast⟩
    match resp with
    | .failure body =>
      let errField := body.getField "error"
      let msgField := (errField.getD Json.null).getField "message"
      let ev1 := if (msgField.getD Json.null).truthy
        then [Event.toastError (msgField.getD Json.null)] else []
      ⟨ml3, false, ev0 ++ ev1 ++ [.onError (.json (errField.getD Json.null))], some req⟩
    | .stream frames abortedDuring =>
      let fin := handleStream onData ⟨"", ml3, ev0⟩ frames
      ⟨fin.messageList, abortedDuring, fin.events, some req⟩

/-- `WenxinClass.refresh`: drop the last message and replay. -/
def refresh (setting : Setting) (resp : HttpResponse) (sess : ChatSession) :
    SendOutcome WenxinRequest :=
  sendMessage setting resp { sess with messageList := sess.messageList.dropLast } none

end WenxinClass

/-! ## `GeminiClass` (`src/src/api/gemini.ts`) -/

/-- Character-list versions of `String.prototype.startsWith` /
`endsWith`; used so that all decoder definitions evaluate by kernel
reduction. -/
def strStartsWith (s p : String) : Bool := p.data.isPrefixOf s.data

def strEndsWith (s p : String) : Bool := p.data.isSuffixOf s.data

/-- Result object of `tryParse`: the text to keep buffering and the parsed
response (`none` models the `null` returned for non-JSON text). -/
structure TryParseResult where
  remainingText : String
  parsedResponse : Option Json

/-- `tryParse` (src/src/api/gemini.ts:27-67): normalises the buffered
fragment's surrounding brackets, then attempts `JSON.parse`.  A fragment
that starts with neither `[` nor `,` is returned verbatim with a `null`
parse; a normalised fragment that fails to parse makes `tryParse` throw
(`Except.error`). -/
def tryParse (currentText : String) : Except String TryParseResult :=
  let jsonTextOpt : Option String :=
    if strStartsWith currentText "[" then
      some (if strEndsWith currentText "]" then currentText else currentText ++ "]")
    else if strStartsWith currentText "," then
      some (if strEndsWith currentText "]" then "[" ++ String.mk (currentText.data.drop 1)
            else "[" ++ String.mk (currentText.data.drop 1) ++ "]")
    else none
  match jsonTextOpt with
  | none => .ok ⟨currentText, none⟩
  | some jsonText =>
    match JSON.parse jsonText with
    | some parsedResponse => .ok ⟨"", some parsedResponse⟩
    | none => .error ("无效的JSON格式: " ++ jsonText)

/-- A history entry transposed to Gemini's `{role, parts: [{text}]}` shape. -/
structure GeminiPart where
  text : String
deriving DecidableEq

structure GeminiContent where
  role : String
  parts : List GeminiPart
deriving DecidableEq

/-- The Gemini request: key-bearing URL and body `{contents}`. -/
structure GeminiRequest where
  url : String
  contents : List GeminiContent
deriving DecidableEq

/-- Closure state of `GeminiClass.sendMessage` while chunks arrive. -/
structure GeminiStreamState where
  result : String
  currentText : String
  stop : Bool
  messageList : List Message
  events : List Event

namespace GeminiClass

/-- The history transposition (src/src/api/gemini.ts:134-146):
`assistant` becomes role `model`, everything else role `user`. -/
def toBodyMessage (ms : List Message) : List GeminiContent :=
  ms.map fun item =>
    if item.role = Role.assistant then ⟨"model", [⟨item.content⟩]⟩
    else ⟨"user", [⟨item.content⟩]⟩

/-- The elements iterated by `for (const item of parsedResponse)`;
`tryParse` only ever yields arrays, their elements. -/
def jsonItems : Json → List Json
  | .arr items => items
  | _ => []

/-- One iteration of the item loop (src/src/api/gemini.ts:196-216):
read `item.candidates[0].content.parts[0].text`, extend `result`, replace
the last message's content with the cumulative `result`, set `stop` when
the chunk ends with `]`, and fire `onGenerating`.  `none` is the
`TypeError` thrown when the item lacks that shape. -/
def itemStep (value : String) (st : GeminiStreamState) (item : Json) :
    Option GeminiStreamState :=
  match item.getField "candidates" with
  | some (Json.arr (cand0 :: _)) =>
    match cand0.getField "content" with
    | some contentObj =>
      match contentObj.getField "parts" with
      | some (Json.arr (p0 :: _)) =>
        match p0.getField "text" with
        | some (Json.str t) =>
          let result := st.result ++ t
          some { st with
            result := result
            messageList := setLast st.messageList result
            stop := if strEndsWith value "]" then true else st.stop
            events := st.events ++ [.onGenerating result] }
        | _ => none
      | _ => none
    | none => none
  | _ => none

/-- The item loop; a thrown `TypeError` (second component `true`) keeps the
mutations already performed and abandons the rest of `jsonParser`. -/
def itemsLoop (value : String) (st : GeminiStreamState) :
    List Json → GeminiStreamState × Bool
  | [] => (st, false)
  | item :: rest =>
    match itemStep value st item with
    | none => (st, true)
    | some st2 => itemsLoop value st2 rest

/-- `jsonParser` (src/src/api/gemini.ts:184-223) on one decoded text
chunk.  `currentText` always receives the chunk first; a `tryParse` throw
only rejects the un-awaited `jsonParser` promise, so the read loop
continues with the buffer retained.  When the parse yields `null`
(non-JSON buffer) or `stop` was set, `onComplete(result)` fires. -/
def jsonParser (st : GeminiStreamState) (value : String) : GeminiStreamState :=
  let st1 := { st with currentText := st.currentText ++ value }
  match tryParse st1.currentText with
  | .error _ => st1
  | .ok r =>
    match r.parsedResponse with
    | some parsed =>
      let st2 := { st1 with currentText := r.remainingText }
      let loopRes := itemsLoop value st2 (jsonItems parsed)
      if loopRes.2 then loopRes.1
      else if loopRes.1.stop then
        { loopRes.1 with events := loopRes.1.events ++ [.onComplete loopRes.1.result] }
      else loopRes.1
    | none =>
      { st1 with events := st1.events ++ [.onComplete st1.result] }

/-- The `while` read loop (src/src/api/gemini.ts:226-233), feeding each
decoded chunk to `jsonParser`. -/
def runChunks (st : GeminiStreamState) : List String → GeminiStreamState
  | [] => st
  | chunk :: rest => runChunks (jsonParser st chunk) rest

/-- `GeminiClass.sendMessage` (src/src/api/gemini.ts:108-237).  The missing
key short-circuits with only a toast.  The whole streaming read loop runs
inside the `try`, so when `abort()` trips the token the pending
`reader.read()` rejects and the `catch` fires `onError("Gemini请求失败")`. -/
def sendMessage (setting : Setting) (resp : HttpResponse) (sess : ChatSession)
    (content : Option String) : SendOutcome GeminiRequest :=
  let key := setting.geminiKey
  if key.getD "" = "" then
    ⟨sess.messageList, false, [.toastError (.str "Gemini API密钥为空")], none⟩
  else
    let url := "https://generativelanguage.googleapis.com/v1beta/models/gemini-pro:streamGenerateContent?key="
      ++ key.getD ""
    let ml2 := pushUserContent sess.messageList content ++ [⟨Role.assistant, "", none⟩]
    let bodyMessage := toBodyMessage ml2.dropLast
    let ev0 : List Event := [.onBeforeRequest]
    let req : GeminiRequest := ⟨url, bodyMessage⟩
    match resp with
    | .failure body =>
      let json0 : Json := match body with
        | .arr (x :: _) => x
        | _ => Json.null
      let errField := json0.getField "error"
      if (errField.getD Json.null).truthy then
        let err := errField.getD Json.null
        let msg := (err.getField "message").getD Json.null
        let arg : CallbackArg := if msg.truthy then argOfField (some msg) else .json err
        ⟨ml2, false, ev0 ++ [.onError arg], some req⟩
      else
        ⟨ml2, false, ev0 ++ [.onError (.json ((body.getField "error").getD Json.null))], some req⟩
    | .stream chunks abortedDuring =>
      let fin := runChunks ⟨"", "", false, ml2, ev0⟩ chunks
      let ev := if abortedDuring then fin.events ++ [.onError (.str "Gemini请求失败")]
        else fin.events
      ⟨fin.messageList, abortedDuring, ev, some req⟩

/-- `GeminiClass.refresh` (src/src/api/gemini.ts:251-254): drop the last
message and replay. -/
def refresh (setting : Setting) (resp : HttpResponse) (sess : ChatSession) :
    SendOutcome GeminiRequest :=
  sendMessage setting resp { sess with messageList := sess.messageList.dropLast } none

end GeminiClass

/-! ## Engine selector (`src/src/api/chat.ts`) -/

/-- The session constructors `getChat` can return. -/
inductive ChatClassRef where
  | OpenAIClass
  | GeminiClass
  | WenxinClass
  | MoonShotClass
  | DeepSeekClass
  | CustomAIClass
deriving DecidableEq

/-- `getChat` (src/src/api/chat.ts:27-42): a `switch` with no default
clause, so every unknown identifier falls through to `undefined`. -/
def getChat (engine : String) : Option ChatClassRef :=
  match engine with
  | "openai" => some .OpenAIClass
  | "gemini" => some .GeminiClass
  | "wenxin" => some .WenxinClass
  | "moonshot" => some .MoonShotClass
  | "deepseek" => some .DeepSeekClass
  | "custom" => some .CustomAIClass
  | _ => none

/-! ## Specification-side artifacts

Definitions used only to *state* the claims: ordered concatenation of
delta texts, the frame shapes the wire contracts describe, and the
concrete inputs of the spec's scenarios. -/

/-- Ordered concatenation of a list of delta texts. -/
def concatTexts : List String → String
  | [] => ""
  | c :: cs => c ++ concatTexts cs

/-- The `onGenerating` trail produced by a run of deltas: each call
receives the cumulative text accumulated so far. -/
def genEvents (res : String) : List String → List Event
  | [] => []
  | c :: cs => Event.onGenerating (res ++ c) :: genEvents (res ++ c) cs

/-- A generic-compatible delta frame `{choices: [{delta: {content: c}}]}`. -/
def deltaFrame (c : String) : Json :=
  Json.obj [("choices", Json.arr [Json.obj [("delta",
    Json.obj [("content", Json.str c)])]])]

/-- An ERNIE delta frame `{result: c}` (its absent `is_end` is falsy). -/
def wenxinDeltaJson (c : String) : Json := Json.obj [("result", Json.str c)]

/-- An ERNIE terminal frame `{is_end: true}`. -/
def wenxinEndJson : Json := Json.obj [("is_end", Json.bool true)]

/-- Whether any stored message still carries the `system` role. -/
def hasSystemRole (ms : List Message) : Bool :=
  ms.any fun m => m.role == Role.system

/-- The engine identifiers `getChat`'s `switch` recognises. -/
def knownEngines : List String :=
  ["openai", "gemini", "wenxin", "moonshot", "deepseek", "custom"]

/-- The spec's generic-compatible scenario frames:
`data: {"choices":[{"delta":{"content":"Hi"}}]}` and the `" there"` twin. -/
def frameHi : String := "\x7b\"choices\":[\x7b\"delta\":\x7b\"content\":\"Hi\"\x7d\x7d]\x7d"

def frameThere : String :=
  "\x7b\"choices\":[\x7b\"delta\":\x7b\"content\":\" there\"\x7d\x7d]\x7d"

/-- A complete Gemini stream element carrying the delta text `t`. -/
def gElem (t : String) : String :=
  "\x7b\"candidates\":[\x7b\"content\":\x7b\"parts\":[\x7b\"text\":\"" ++ t
    ++ "\"\x7d]\x7d\x7d]\x7d"

/-- An ERNIE stream frame carrying the delta text `t`. -/
def wxFrame (t : String) : String := "\x7b\"result\":\"" ++ t ++ "\"\x7d"

/-- The ERNIE terminal stream frame. -/
def wxEnd : String := "\x7b\"is_end\":true\x7d"

/-- Settings with only the respective credential configured, for the
concrete scenarios. -/
def oaSetting : Setting := { Setting.empty with openAIKey := some "sk" }

def gmSetting : Setting := { Setting.empty with geminiKey := some "gk" }

def wxSetting : Setting := { Setting.empty with wenxinToken := some "tok" }

/-- Decoder state as it stands right after `send("hello")` opened the
placeholder, used by the Gemini chunk scenarios. -/
def gemSeed : GeminiStreamState :=
  ⟨"", "", false, [⟨Role.user, "hello", none⟩, ⟨Role.assistant, "", none⟩], []⟩

/-- A parsed Gemini stream element carrying the delta text `c`:
`{candidates: [{content: {parts: [{text: c}]}}]}`. -/
def gItemJson (c : String) : Json :=
  Json.obj [("candidates", Json.arr [Json.obj [("content",
    Json.obj [("parts", Json.arr [Json.obj [("text", Json.str c)]])])]])]

/-- `GDelivers buf chunks texts` characterises the Gemini runs the spec's
property ranges over: starting from buffer `buf`, the raw chunks `chunks`
make the growing-array decoder deliver exactly the delta frames `texts`
and then the vendor's terminal signal.  Each chunk either completes the
buffer into a parseable fragment whose elements are well-formed delta
items (`yield`), or leaves it incomplete so the decoder defers (`defer`);
the final chunk parses, carries at least one delta and ends with the
array-closing `]` (the terminal signal). -/
inductive GDelivers : String → List String → List String → Prop where
  | last (buf ck : String) (texts : List String)
      (hp : tryParse (buf ++ ck) = .ok ⟨"", some (Json.arr (texts.map gItemJson))⟩)
      (hne : texts ≠ []) (hend : strEndsWith ck "]" = true) :
      GDelivers buf [ck] texts
  | defer (buf ck : String) (cks : List String) (texts : List String) (msg : String)
      (hp : tryParse (buf ++ ck) = .error msg)
      (hrest : GDelivers (buf ++ ck) cks texts) :
      GDelivers buf (ck :: cks) texts
  | yield (buf ck : String) (cks : List String) (texts rest : List String)
      (hp : tryParse (buf ++ ck) = .ok ⟨"", some (Json.arr (texts.map gItemJson))⟩)
      (hend : strEndsWith ck "]" = false)
      (hrest : GDelivers "" cks rest) :
      GDelivers buf (ck :: cks) (texts ++ rest)
/-! ## Helper lemmas about the message-list update steps -/

lemma mapIdx_id_of {α : Type} (l : List α) (f : ℕ → α → α)
    (h : ∀ i (hi : i < l.length), f i (l.get ⟨i, hi⟩) = l.get ⟨i, hi⟩) :
    l.mapIdx f = l := by
  apply List.ext_get (by simp)
  intro n h1 h2
  rw [List.get_mapIdx]
  exact h n h2

lemma updateLast_concat (l : List Message) (x : Message) (t : String) :
    updateLast (l ++ [x]) t = l ++ [⟨x.role, x.content ++ t, x.isError⟩] := by
  unfold updateLast
  rw [List.mapIdx_append_one]
  simp only [List.length_append, List.length_singleton, Nat.add_sub_cancel]
  congr 1
  · apply mapIdx_id_of
    intro i hi
    simp [Nat.ne_of_lt hi]

lemma setLast_concat (l : List Message) (x : Message) (r : String) :
    setLast (l ++ [x]) r = l ++ [⟨x.role, r, x.isError⟩] := by
  unfold setLast
  rw [List.mapIdx_append_one]
  simp only [List.length_append, List.length_singleton, Nat.add_sub_cancel]
  congr 1
  · apply mapIdx_id_of
    intro i hi
    simp [Nat.ne_of_lt hi]

lemma updateLast_dropLast (ms : List Message) (t : String) :
    (updateLast ms t).dropLast = ms.dropLast := by
  rcases ms.eq_nil_or_concat' with rfl | ⟨l, x, rfl⟩
  · rfl
  · rw [updateLast_concat, List.dropLast_concat, List.dropLast_concat]

lemma updateLast_map_role (ms : List Message) (t : String) :
    (updateLast ms t).map Message.role = ms.map Message.role := by
  rcases ms.eq_nil_or_concat' with rfl | ⟨l, x, rfl⟩
  · rfl
  · rw [updateLast_concat]
    simp

lemma updateLast_length (ms : List Message) (t : String) :
    (updateLast ms t).length = ms.length := by
  simp [updateLast]

lemma setLast_dropLast (ms : List Message) (r : String) :
    (setLast ms r).dropLast = ms.dropLast := by
  rcases ms.eq_nil_or_concat' with rfl | ⟨l, x, rfl⟩
  · rfl
  · rw [setLast_concat, List.dropLast_concat, List.dropLast_concat]

/-- A fold over `handleStream` preserves any reflexive-transitive relation
that every successful callback step preserves (a failing step keeps the
state unchanged). -/
lemma handleStream_preserve {σ : Type} (onData : σ → String → Option σ)
    (P : σ → σ → Prop) (hrefl : ∀ s, P s s)
    (htrans : ∀ a b c, P a b → P b c → P a c)
    (hstep : ∀ s s2 d, onData s d = some s2 → P s s2) :
    ∀ (frames : List String) (st : σ), P st (handleStream onData st frames) := by
  intro frames
  induction frames with
  | nil => intro st; exact hrefl st
  | cons d ds ih =>
    intro st
    unfold handleStream
    cases hs : onData st d
    · exact hrefl st
    · exact htrans _ _ _ (hstep _ _ _ hs) (ih _)

/-! ## Stream-run lemmas for the generic (OpenAI) handler -/

lemma parse_DONE_none : JSON.parse "[DONE]" = none := rfl

lemma oaOnData_delta (res c0 : String) (pre : List Message)
    (ie : Option Bool) (ev : List Event) (data c : String)
    (hp : JSON.parse data = some (deltaFrame c)) :
    OpenAIClass.onData ⟨res, pre ++ [⟨Role.assistant, c0, ie⟩], ev⟩ data =
      some ⟨res ++ c, pre ++ [⟨Role.assistant, c0 ++ c, ie⟩],
        ev ++ [.onGenerating (res ++ c)]⟩ := by
  have hne : data ≠ "[DONE]" := by
    intro h
    rw [h, parse_DONE_none] at hp
    cases hp
  unfold OpenAIClass.onData
  rw [if_pos hne, hp]
  simp [deltaFrame, Json.getField, lookupField, Json.truthy, updateLast_concat]

lemma oaOnData_done (res c0 : String) (pre : List Message)
    (ie : Option Bool) (ev : List Event) :
    OpenAIClass.onData ⟨res, pre ++ [⟨Role.assistant, c0, ie⟩], ev⟩ "[DONE]" =
      some ⟨res, pre ++ [⟨Role.assistant, c0, ie⟩], ev ++ [.onComplete c0]⟩ := by
  unfold OpenAIClass.onData
  rw [if_neg (by simp)]
  simp [List.getLast?_concat]

lemma oaHandleStream_deltas (datas cs : List String)
    (hf : List.Forall₂ (fun data c => JSON.parse data = some (deltaFrame c)) datas cs) :
    ∀ (res c0 : String) (pre : List Message) (ie : Option Bool) (ev : List Event),
    handleStream OpenAIClass.onData ⟨res, pre ++ [⟨Role.assistant, c0, ie⟩], ev⟩
        (datas ++ ["[DONE]"]) =
      ⟨res ++ concatTexts cs, pre ++ [⟨Role.assistant, c0 ++ concatTexts cs, ie⟩],
        ev ++ genEvents res cs ++ [.onComplete (c0 ++ concatTexts cs)]⟩ := by
  induction hf with
  | nil =>
    intro res c0 pre ie ev
    show handleStream OpenAIClass.onData _ ["[DONE]"] = _
    unfold handleStream
    rw [oaOnData_done]
    unfold handleStream
    simp [concatTexts, genEvents, String.append_empty]
  | @cons data c datas2 cs2 hrel htail ih =>
    intro res c0 pre ie ev
    show handleStream OpenAIClass.onData _ (data :: (datas2 ++ ["[DONE]"])) = _
    unfold handleStream
    rw [oaOnData_delta res c0 pre ie ev data c hrel]
    show handleStream OpenAIClass.onData
      ⟨res ++ c, pre ++ [⟨Role.assistant, c0 ++ c, ie⟩],
        ev ++ [.onGenerating (res ++ c)]⟩ (datas2 ++ ["[DONE]"]) = _
    rw [ih (res ++ c) (c0 ++ c) pre ie (ev ++ [Event.onGenerating (res ++ c)])]
    simp [concatTexts, genEvents, String.append_assoc]

lemma genEvents_filter_isComplete (res : String) (cs : List String) :
    (genEvents res cs).filter Event.isComplete = [] := by
  induction cs generalizing res with
  | nil => rfl
  | cons c cs ih => simp [genEvents, List.filter, Event.isComplete, ih]

/-! ## Stream-run lemmas for the ERNIE (Wenxin) handler -/

lemma wxOnData_delta (res c0 : String) (pre : List Message)
    (ie : Option Bool) (ev : List Event) (data c : String)
    (hp : JSON.parse data = some (wenxinDeltaJson c)) :
    WenxinClass.onData ⟨res, pre ++ [⟨Role.assistant, c0, ie⟩], ev⟩ data =
      some ⟨res ++ c, pre ++ [⟨Role.assistant, c0 ++ c, ie⟩],
        ev ++ [.onGenerating (res ++ c)]⟩ := by
  unfold WenxinClass.onData
  rw [hp]
  simp [wenxinDeltaJson, Json.getField, lookupField, Json.truthy, updateLast_concat]

lemma wxOnData_end (res c0 : String) (pre : List Message)
    (ie : Option Bool) (ev : List Event) (endData : String)
    (hp : JSON.parse endData = some wenxinEndJson) :
    WenxinClass.onData ⟨res, pre ++ [⟨Role.assistant, c0, ie⟩], ev⟩ endData =
      some ⟨res, pre ++ [⟨Role.assistant, c0, ie⟩],
        ev ++ [.onGenerating res, .onComplete c0]⟩ := by
  unfold WenxinClass.onData
  rw [hp]
  simp [wenxinEndJson, Json.getField, lookupField, Json.truthy, updateLast_concat,
    List.getLast?_concat, String.append_empty]

lemma wxHandleStream_deltas (datas cs : List String)
    (hf : List.Forall₂ (fun data c => JSON.parse data = some (wenxinDeltaJson c)) datas cs)
    (endData : String) (hend : JSON.parse endData = some wenxinEndJson) :
    ∀ (res c0 : String) (pre : List Message) (ie : Option Bool) (ev : List Event),
    handleStream WenxinClass.onData ⟨res, pre ++ [⟨Role.assistant, c0, ie⟩], ev⟩
        (datas ++ [endData]) =
      ⟨res ++ concatTexts cs, pre ++ [⟨Role.assistant, c0 ++ concatTexts cs, ie⟩],
        ev ++ genEvents res cs ++ [.onGenerating (res ++ concatTexts cs),
          .onComplete (c0 ++ concatTexts cs)]⟩ := by
  induction hf with
  | nil =>
    intro res c0 pre ie ev
    show handleStream WenxinClass.onData _ [endData] = _
    unfold handleStream
    rw [wxOnData_end res c0 pre ie ev endData hend]
    unfold handleStream
    simp [concatTexts, genEvents, String.append_empty]
  | @cons data c datas2 cs2 hrel htail ih =>
    intro res c0 pre ie ev
    show handleStream WenxinClass.onData _ (data :: (datas2 ++ [endData])) = _
    unfold handleStream
    rw [wxOnData_delta res c0 pre ie ev data c hrel]
    show handleStream WenxinClass.onData
      ⟨res ++ c, pre ++ [⟨Role.assistant, c0 ++ c, ie⟩],
        ev ++ [.onGenerating (res ++ c)]⟩ (datas2 ++ [endData]) = _
    rw [ih (res ++ c) (c0 ++ c) pre ie (ev ++ [Event.onGenerating (res ++ c)])]
    simp [concatTexts, genEvents, String.append_assoc]

lemma formateMessage_wenxin_concat_placeholder (a : List Message) :
    formateMessage "wenxin" (a ++ [⟨Role.assistant, "", none⟩]) =
      formateMessage "wenxin" a ++ [⟨Role.assistant, "", none⟩] := by
  simp [formateMessage]

/-! ## Shape preservation of the stream handlers -/

lemma oaOnData_shape (st st2 : StreamState) (d : String)
    (h : OpenAIClass.onData st d = some st2) :
    st2.messageList.dropLast = st.messageList.dropLast ∧
    st2.messageList.length = st.messageList.length ∧
    st2.messageList.map Message.role = st.messageList.map Message.role := by
  unfold OpenAIClass.onData at h
  split at h
  · split at h
    · simp at h
    · split at h
      · cases h
        exact ⟨rfl, rfl, rfl⟩
      · split at h
        · split at h
          · cases h
            exact ⟨updateLast_dropLast _ _, updateLast_length _ _,
              updateLast_map_role _ _⟩
          · simp at h
        · simp at h
  · split at h
    · cases h
      exact ⟨rfl, rfl, rfl⟩
    · simp at h

lemma oaHandleStream_shape (frames : List String) (st : StreamState) :
    (handleStream OpenAIClass.onData st frames).messageList.dropLast
        = st.messageList.dropLast ∧
    (handleStream OpenAIClass.onData st frames).messageList.length
        = st.messageList.length ∧
    (handleStream OpenAIClass.onData st frames).messageList.map Message.role
        = st.messageList.map Message.role :=
  handleStream_preserve OpenAIClass.onData
    (fun a b => b.messageList.dropLast = a.messageList.dropLast ∧
      b.messageList.length = a.messageList.length ∧
      b.messageList.map Message.role = a.messageList.map Message.role)
    (fun _ => ⟨rfl, rfl, rfl⟩)
    (fun _ _ _ hab hbc => ⟨hbc.1.trans hab.1, hbc.2.1.trans hab.2.1,
      hbc.2.2.trans hab.2.2⟩)
    (fun s s2 d h => oaOnData_shape s s2 d h) frames st

lemma wxOnData_shape (st st2 : StreamState) (d : String)
    (h : WenxinClass.onData st d = some st2) :
    st2.messageList.dropLast = st.messageList.dropLast ∧
    st2.messageList.length = st.messageList.length ∧
    st2.messageList.map Message.role = st.messageList.map Message.role := by
  unfold WenxinClass.onData at h
  split at h
  · cases h
  · split at h
    · cases h
      exact ⟨rfl, rfl, rfl⟩
    · simp only [] at h
      repeat' split at h
      all_goals first
        | (cases h; exact ⟨updateLast_dropLast _ _, updateLast_length _ _,
            updateLast_map_role _ _⟩)
        | (cases h)

lemma wxHandleStream_shape (frames : List String) (st : StreamState) :
    (handleStream WenxinClass.onData st frames).messageList.dropLast
        = st.messageList.dropLast ∧
    (handleStream WenxinClass.onData st frames).messageList.length
        = st.messageList.length ∧
    (handleStream WenxinClass.onData st frames).messageList.map Message.role
        = st.messageList.map Message.role :=
  handleStream_preserve WenxinClass.onData
    (fun a b => b.messageList.dropLast = a.messageList.dropLast ∧
      b.messageList.length = a.messageList.length ∧
      b.messageList.map Message.role = a.messageList.map Message.role)
    (fun _ => ⟨rfl, rfl, rfl⟩)
    (fun _ _ _ hab hbc => ⟨hbc.1.trans hab.1, hbc.2.1.trans hab.2.1,
      hbc.2.2.trans hab.2.2⟩)
    (fun s s2 d h => wxOnData_shape s s2 d h) frames st

lemma msOnData_delta (res c0 : String) (pre : List Message)
    (ie : Option Bool) (ev : List Event) (data c : String)
    (hp : JSON.parse data = some (deltaFrame c)) :
    MoonShotClass.onData ⟨res, pre ++ [⟨Role.assistant, c0, ie⟩], ev⟩ data =
      some ⟨res ++ c, pre ++ [⟨Role.assistant, c0 ++ c, ie⟩],
        ev ++ [.onGenerating (res ++ c)]⟩ := by
  have hne : data ≠ "[DONE]" := by
    intro h
    rw [h, parse_DONE_none] at hp
    cases hp
  unfold MoonShotClass.onData
  rw [if_pos hne, hp]
  simp [deltaFrame, Json.getField, lookupField, Json.truthy, updateLast_concat]

lemma msOnData_done (res c0 : String) (pre : List Message)
    (ie : Option Bool) (ev : List Event) :
    MoonShotClass.onData ⟨res, pre ++ [⟨Role.assistant, c0, ie⟩], ev⟩ "[DONE]" =
      some ⟨res, pre ++ [⟨Role.assistant, c0, ie⟩], ev ++ [.onComplete c0]⟩ := by
  unfold MoonShotClass.onData
  rw [if_neg (by simp)]
  simp [List.getLast?_concat]

lemma msHandleStream_deltas (datas cs : List String)
    (hf : List.Forall₂ (fun data c => JSON.parse data = some (deltaFrame c)) datas cs) :
    ∀ (res c0 : String) (pre : List Message) (ie : Option Bool) (ev : List Event),
    handleStream MoonShotClass.onData ⟨res, pre ++ [⟨Role.assistant, c0, ie⟩], ev⟩
        (datas ++ ["[DONE]"]) =
      ⟨res ++ concatTexts cs, pre ++ [⟨Role.assistant, c0 ++ concatTexts cs, ie⟩],
        ev ++ genEvents res cs ++ [.onComplete (c0 ++ concatTexts cs)]⟩ := by
  induction hf with
  | nil =>
    intro res c0 pre ie ev
    show handleStream MoonShotClass.onData _ ["[DONE]"] = _
    unfold handleStream
    rw [msOnData_done]
    unfold handleStream
    simp [concatTexts, genEvents, String.append_empty]
  | @cons data c datas2 cs2 hrel htail ih =>
    intro res c0 pre ie ev
    show handleStream MoonShotClass.onData _ (data :: (datas2 ++ ["[DONE]"])) = _
    unfold handleStream
    rw [msOnData_delta res c0 pre ie ev data c hrel]
    show handleStream MoonShotClass.onData
      ⟨res ++ c, pre ++ [⟨Role.assistant, c0 ++ c, ie⟩],
        ev ++ [.onGenerating (res ++ c)]⟩ (datas2 ++ ["[DONE]"]) = _
    rw [ih (res ++ c) (c0 ++ c) pre ie (ev ++ [Event.onGenerating (res ++ c)])]
    simp [concatTexts, genEvents, String.append_assoc]

lemma msOnData_shape (st st2 : StreamState) (d : String)
    (h : MoonShotClass.onData st d = some st2) :
    st2.messageList.dropLast = st.messageList.dropLast ∧
    st2.messageList.length = st.messageList.length ∧
    st2.messageList.map Message.role = st.messageList.map Message.role := by
  unfold MoonShotClass.onData at h
  split at h
  · split at h
    · simp at h
    · split at h
      · cases h
        exact ⟨rfl, rfl, rfl⟩
      · split at h
        · split at h
          · cases h
            exact ⟨updateLast_dropLast _ _, updateLast_length _ _,
              updateLast_map_role _ _⟩
          · simp at h
        · simp at h
  · split at h
    · cases h
      exact ⟨rfl, rfl, rfl⟩
    · simp at h

lemma msHandleStream_shape (frames : List String) (st : StreamState) :
    (handleStream MoonShotClass.onData st frames).messageList.dropLast
        = st.messageList.dropLast ∧
    (handleStream MoonShotClass.onData st frames).messageList.length
        = st.messageList.length ∧
    (handleStream MoonShotClass.onData st frames).messageList.map Message.role
        = st.messageList.map Message.role :=
  handleStream_preserve MoonShotClass.onData
    (fun a b => b.messageList.dropLast = a.messageList.dropLast ∧
      b.messageList.length = a.messageList.length ∧
      b.messageList.map Message.role = a.messageList.map Message.role)
    (fun _ => ⟨rfl, rfl, rfl⟩)
    (fun _ _ _ hab hbc => ⟨hbc.1.trans hab.1, hbc.2.1.trans hab.2.1,
      hbc.2.2.trans hab.2.2⟩)
    (fun s s2 d h => msOnData_shape s s2 d h) frames st

lemma dsOnData_delta (res c0 : String) (pre : List Message)
    (ie : Option Bool) (ev : List Event) (data c : String)
    (hp : JSON.parse data = some (deltaFrame c)) :
    DeepSeekClass.onData ⟨res, pre ++ [⟨Role.assistant, c0, ie⟩], ev⟩ data =
      some ⟨res ++ c, pre ++ [⟨Role.assistant, c0 ++ c, ie⟩],
        ev ++ [.onGenerating (res ++ c)]⟩ := by
  have hne : data ≠ "[DONE]" := by
    intro h
    rw [h, parse_DONE_none] at hp
    cases hp
  unfold DeepSeekClass.onData
  rw [if_pos hne, hp]
  simp [deltaFrame, Json.getField, lookupField, Json.truthy, updateLast_concat]

lemma dsOnData_done (res c0 : String) (pre : List Message)
    (ie : Option Bool) (ev : List Event) :
    DeepSeekClass.onData ⟨res, pre ++ [⟨Role.assistant, c0, ie⟩], ev⟩ "[DONE]" =
      some ⟨res, pre ++ [⟨Role.assistant, c0, ie⟩], ev ++ [.onComplete c0]⟩ := by
  unfold DeepSeekClass.onData
  rw [if_neg (by simp)]
  simp [List.getLast?_concat]

lemma dsHandleStream_deltas (datas cs : List String)
    (hf : List.Forall₂ (fun data c => JSON.parse data = some (deltaFrame c)) datas cs) :
    ∀ (res c0 : String) (pre : List Message) (ie : Option Bool) (ev : List Event),
    handleStream DeepSeekClass.onData ⟨res, pre ++ [⟨Role.assistant, c0, ie⟩], ev⟩
        (datas ++ ["[DONE]"]) =
      ⟨res ++ concatTexts cs, pre ++ [⟨Role.assistant, c0 ++ concatTexts cs, ie⟩],
        ev ++ genEvents res cs ++ [.onComplete (c0 ++ concatTexts cs)]⟩ := by
  induction hf with
  | nil =>
    intro res c0 pre ie ev
    show handleStream DeepSeekClass.onData _ ["[DONE]"] = _
    unfold handleStream
    rw [dsOnData_done]
    unfold handleStream
    simp [concatTexts, genEvents, String.append_empty]
  | @cons data c datas2 cs2 hrel htail ih =>
    intro res c0 pre ie ev
    show handleStream DeepSeekClass.onData _ (data :: (datas2 ++ ["[DONE]"])) = _
    unfold handleStream
    rw [dsOnData_delta res c0 pre ie ev data c hrel]
    show handleStream DeepSeekClass.onData
      ⟨res ++ c, pre ++ [⟨Role.assistant, c0 ++ c, ie⟩],
        ev ++ [.onGenerating (res ++ c)]⟩ (datas2 ++ ["[DONE]"]) = _
    rw [ih (res ++ c) (c0 ++ c) pre ie (ev ++ [Event.onGenerating (res ++ c)])]
    simp [concatTexts, genEvents, String.append_assoc]

lemma dsOnData_shape (st st2 : StreamState) (d : String)
    (h : DeepSeekClass.onData st d = some st2) :
    st2.messageList.dropLast = st.messageList.dropLast ∧
    st2.messageList.length = st.messageList.length ∧
    st2.messageList.map Message.role = st.messageList.map Message.role := by
  unfold DeepSeekClass.onData at h
  split at h
  · split at h
    · simp at h
    · split at h
      · cases h
        exact ⟨rfl, rfl, rfl⟩
      · split at h
        · split at h
          · cases h
            exact ⟨updateLast_dropLast _ _, updateLast_length _ _,
              updateLast_map_role _ _⟩
          · simp at h
        · simp at h
  · split at h
    · cases h
      exact ⟨rfl, rfl, rfl⟩
    · simp at h

lemma dsHandleStream_shape (frames : List String) (st : StreamState) :
    (handleStream DeepSeekClass.onData st frames).messageList.dropLast
        = st.messageList.dropLast ∧
    (handleStream DeepSeekClass.onData st frames).messageList.length
        = st.messageList.length ∧
    (handleStream DeepSeekClass.onData st frames).messageList.map Message.role
        = st.messageList.map Message.role :=
  handleStream_preserve DeepSeekClass.onData
    (fun a b => b.messageList.dropLast = a.messageList.dropLast ∧
      b.messageList.length = a.messageList.length ∧
      b.messageList.map Message.role = a.messageList.map Message.role)
    (fun _ => ⟨rfl, rfl, rfl⟩)
    (fun _ _ _ hab hbc => ⟨hbc.1.trans hab.1, hbc.2.1.trans hab.2.1,
      hbc.2.2.trans hab.2.2⟩)
    (fun s s2 d h => dsOnData_shape s s2 d h) frames st

lemma caOnData_delta (res c0 : String) (pre : List Message)
    (ie : Option Bool) (ev : List Event) (data c : String)
    (hp : JSON.parse data = some (deltaFrame c)) :
    CustomAIClass.onData ⟨res, pre ++ [⟨Role.assistant, c0, ie⟩], ev⟩ data =
      some ⟨res ++ c, pre ++ [⟨Role.assistant, c0 ++ c, ie⟩],
        ev ++ [.onGenerating (res ++ c)]⟩ := by
  have hne : data ≠ "[DONE]" := by
    intro h
    rw [h, parse_DONE_none] at hp
    cases hp
  unfold CustomAIClass.onData
  rw [if_pos hne, hp]
  simp [deltaFrame, Json.getField, lookupField, Json.truthy, updateLast_concat]

lemma caOnData_done (res c0 : String) (pre : List Message)
    (ie : Option Bool) (ev : List Event) :
    CustomAIClass.onData ⟨res, pre ++ [⟨Role.assistant, c0, ie⟩], ev⟩ "[DONE]" =
      some ⟨res, pre ++ [⟨Role.assistant, c0, ie⟩], ev ++ [.onComplete c0]⟩ := by
  unfold CustomAIClass.onData
  rw [if_neg (by simp)]
  simp [List.getLast?_concat]

lemma caHandleStream_deltas (datas cs : List String)
    (hf : List.Forall₂ (fun data c => JSON.parse data = some (deltaFrame c)) datas cs) :
    ∀ (res c0 : String) (pre : List Message) (ie : Option Bool) (ev : List Event),
    handleStream CustomAIClass.onData ⟨res, pre ++ [⟨Role.assistant, c0, ie⟩], ev⟩
        (datas ++ ["[DONE]"]) =
      ⟨res ++ concatTexts cs, pre ++ [⟨Role.assistant, c0 ++ concatTexts cs, ie⟩],
        ev ++ genEvents res cs ++ [.onComplete (c0 ++ concatTexts cs)]⟩ := by
  induction hf with
  | nil =>
    intro res c0 pre ie ev
    show handleStream CustomAIClass.onData _ ["[DONE]"] = _
    unfold handleStream
    rw [caOnData_done]
    unfold handleStream
    simp [concatTexts, genEvents, String.append_empty]
  | @cons data c datas2 cs2 hrel htail ih =>
    intro res c0 pre ie ev
    show handleStream CustomAIClass.onData _ (data :: (datas2 ++ ["[DONE]"])) = _
    unfold handleStream
    rw [caOnData_delta res c0 pre ie ev data c hrel]
    show handleStream CustomAIClass.onData
      ⟨res ++ c, pre ++ [⟨Role.assistant, c0 ++ c, ie⟩],
        ev ++ [.onGenerating (res ++ c)]⟩ (datas2 ++ ["[DONE]"]) = _
    rw [ih (res ++ c) (c0 ++ c) pre ie (ev ++ [Event.onGenerating (res ++ c)])]
    simp [concatTexts, genEvents, String.append_assoc]

lemma caOnData_shape (st st2 : StreamState) (d : String)
    (h : CustomAIClass.onData st d = some st2) :
    st2.messageList.dropLast = st.messageList.dropLast ∧
    st2.messageList.length = st.messageList.length ∧
    st2.messageList.map Message.role = st.messageList.map Message.role := by
  unfold CustomAIClass.onData at h
  split at h
  · split at h
    · simp at h
    · split at h
      · cases h
        exact ⟨rfl, rfl, rfl⟩
      · split at h
        · split at h
          · cases h
            exact ⟨updateLast_dropLast _ _, updateLast_length _ _,
              updateLast_map_role _ _⟩
          · simp at h
        · simp at h
  · split at h
    · cases h
      exact ⟨rfl, rfl, rfl⟩
    · simp at h

lemma caHandleStream_shape (frames : List String) (st : StreamState) :
    (handleStream CustomAIClass.onData st frames).messageList.dropLast
        = st.messageList.dropLast ∧
    (handleStream CustomAIClass.onData st frames).messageList.length
        = st.messageList.length ∧
    (handleStream CustomAIClass.onData st frames).messageList.map Message.role
        = st.messageList.map Message.role :=
  handleStream_preserve CustomAIClass.onData
    (fun a b => b.messageList.dropLast = a.messageList.dropLast ∧
      b.messageList.length = a.messageList.length ∧
      b.messageList.map Message.role = a.messageList.map Message.role)
    (fun _ => ⟨rfl, rfl, rfl⟩)
    (fun _ _ _ hab hbc => ⟨hbc.1.trans hab.1, hbc.2.1.trans hab.2.1,
      hbc.2.2.trans hab.2.2⟩)
    (fun s s2 d h => caOnData_shape s s2 d h) frames st

lemma concatTexts_append (a b : List String) :
    concatTexts (a ++ b) = concatTexts a ++ concatTexts b := by
  induction a with
  | nil => simp [concatTexts, String.empty_append]
  | cons c cs ih => simp [concatTexts, ih, String.append_assoc]

lemma genEvents_append (a b : List String) :
    ∀ r, genEvents r (a ++ b) = genEvents r a ++ genEvents (r ++ concatTexts a) b := by
  induction a with
  | nil =>
    intro r
    simp [genEvents, concatTexts, String.append_empty]
  | cons c cs ih =>
    intro r
    simp [genEvents, concatTexts, ih, String.append_assoc]

lemma setLast_length (ms : List Message) (r : String) :
    (setLast ms r).length = ms.length := by
  simp [setLast]

lemma gmItemStep_gItem (value res ct : String) (s0 : Bool) (pre : List Message)
    (ie : Option Bool) (ev : List Event) (c : String) :
    GeminiClass.itemStep value ⟨res, ct, s0, pre ++ [⟨Role.assistant, res, ie⟩], ev⟩
        (gItemJson c) =
      some ⟨res ++ c, ct, (if strEndsWith value "]" then true else s0),
        pre ++ [⟨Role.assistant, res ++ c, ie⟩], ev ++ [.onGenerating (res ++ c)]⟩ := by
  unfold GeminiClass.itemStep
  simp [gItemJson, Json.getField, lookupField, setLast_concat]

lemma gmItemsLoop_run (value : String) (texts : List String) :
    ∀ (res ct : String) (s0 : Bool) (pre : List Message) (ie : Option Bool)
      (ev : List Event),
    GeminiClass.itemsLoop value ⟨res, ct, s0, pre ++ [⟨Role.assistant, res, ie⟩], ev⟩
        (texts.map gItemJson) =
      (⟨res ++ concatTexts texts, ct,
        (if texts = [] then s0 else (strEndsWith value "]" || s0)),
        pre ++ [⟨Role.assistant, res ++ concatTexts texts, ie⟩],
        ev ++ genEvents res texts⟩, false) := by
  induction texts with
  | nil =>
    intro res ct s0 pre ie ev
    simp [GeminiClass.itemsLoop, concatTexts, genEvents, String.append_empty]
  | cons c cs ih =>
    intro res ct s0 pre ie ev
    show GeminiClass.itemsLoop value _ (gItemJson c :: cs.map gItemJson) = _
    unfold GeminiClass.itemsLoop
    rw [gmItemStep_gItem]
    show GeminiClass.itemsLoop value
      ⟨res ++ c, ct, (if strEndsWith value "]" then true else s0),
        pre ++ [⟨Role.assistant, res ++ c, ie⟩],
        ev ++ [Event.onGenerating (res ++ c)]⟩ (cs.map gItemJson) = _
    rw [ih (res ++ c) ct (if strEndsWith value "]" then true else s0) pre ie
      (ev ++ [Event.onGenerating (res ++ c)])]
    by_cases hcs : cs = [] <;> cases hE : strEndsWith value "]" <;>
      simp [hcs, hE, concatTexts, genEvents, String.append_assoc]

lemma gmRunChunks_delivery (buf : String) (chunks : List String)
    (texts : List String) (hdel : GDelivers buf chunks texts) :
    ∀ (res : String) (pre : List Message) (ie : Option Bool) (ev : List Event),
    GeminiClass.runChunks ⟨res, buf, false, pre ++ [⟨Role.assistant, res, ie⟩], ev⟩
        chunks =
      ⟨res ++ concatTexts texts, "", true,
        pre ++ [⟨Role.assistant, res ++ concatTexts texts, ie⟩],
        ev ++ genEvents res texts ++ [.onComplete (res ++ concatTexts texts)]⟩ := by
  induction hdel with
  | last buf ck ts hp hne hend =>
    intro res pre ie ev
    have hj : GeminiClass.jsonParser
        ⟨res, buf, false, pre ++ [⟨Role.assistant, res, ie⟩], ev⟩ ck
        = ⟨res ++ concatTexts ts, "", true,
            pre ++ [⟨Role.assistant, res ++ concatTexts ts, ie⟩],
            ev ++ genEvents res ts ++ [.onComplete (res ++ concatTexts ts)]⟩ := by
      unfold GeminiClass.jsonParser
      simp only []
      rw [hp]
      show (let st2 : GeminiStreamState := ⟨res, "", false,
              pre ++ [⟨Role.assistant, res, ie⟩], ev⟩
            let loopRes := GeminiClass.itemsLoop ck st2
              (GeminiClass.jsonItems (Json.arr (ts.map gItemJson)))
            if loopRes.2 then loopRes.1
            else if loopRes.1.stop then
              { loopRes.1 with events := loopRes.1.events ++ [.onComplete loopRes.1.result] }
            else loopRes.1) = _
      simp only [GeminiClass.jsonItems]
      rw [gmItemsLoop_run ck ts res "" false pre ie ev]
      simp [hne, hend]
    show GeminiClass.runChunks (GeminiClass.jsonParser _ ck) [] = _
    rw [hj]
    rfl
  | defer buf ck cks ts msg hp hrest ih =>
    intro res pre ie ev
    have hj : GeminiClass.jsonParser
        ⟨res, buf, false, pre ++ [⟨Role.assistant, res, ie⟩], ev⟩ ck
        = ⟨res, buf ++ ck, false, pre ++ [⟨Role.assistant, res, ie⟩], ev⟩ := by
      unfold GeminiClass.jsonParser
      simp only []
      rw [hp]
    show GeminiClass.runChunks (GeminiClass.jsonParser _ ck) cks = _
    rw [hj]
    exact ih res pre ie ev
  | yield buf ck cks ts rest hp hend hrest ih =>
    intro res pre ie ev
    have hj : GeminiClass.jsonParser
        ⟨res, buf, false, pre ++ [⟨Role.assistant, res, ie⟩], ev⟩ ck
        = ⟨res ++ concatTexts ts, "", false,
            pre ++ [⟨Role.assistant, res ++ concatTexts ts, ie⟩],
            ev ++ genEvents res ts⟩ := by
      unfold GeminiClass.jsonParser
      simp only []
      rw [hp]
      show (let st2 : GeminiStreamState := ⟨res, "", false,
              pre ++ [⟨Role.assistant, res, ie⟩], ev⟩
            let loopRes := GeminiClass.itemsLoop ck st2
              (GeminiClass.jsonItems (Json.arr (ts.map gItemJson)))
            if loopRes.2 then loopRes.1
            else if loopRes.1.stop then
              { loopRes.1 with events := loopRes.1.events ++ [.onComplete loopRes.1.result] }
            else loopRes.1) = _
      simp only [GeminiClass.jsonItems]
      rw [gmItemsLoop_run ck ts res "" false pre ie ev]
      by_cases hts : ts = [] <;> simp [hts, hend]
    show GeminiClass.runChunks (GeminiClass.jsonParser _ ck) cks = _
    rw [hj]
    rw [ih (res ++ concatTexts ts) pre ie (ev ++ genEvents res ts)]
    simp [concatTexts_append, genEvents_append, String.append_assoc]

lemma gmItemStep_shape (value : String) (st st2 : GeminiStreamState) (item : Json)
    (h : GeminiClass.itemStep value st item = some st2) :
    st2.messageList.dropLast = st.messageList.dropLast ∧
    st2.messageList.length = st.messageList.length := by
  unfold GeminiClass.itemStep at h
  simp only [] at h
  repeat' split at h
  all_goals first
    | (cases h; exact ⟨setLast_dropLast _ _, setLast_length _ _⟩)
    | (cases h)

lemma gmItemsLoop_shape (value : String) :
    ∀ (items : List Json) (st : GeminiStreamState),
    (GeminiClass.itemsLoop value st items).1.messageList.dropLast
        = st.messageList.dropLast ∧
    (GeminiClass.itemsLoop value st items).1.messageList.length
        = st.messageList.length := by
  intro items
  induction items with
  | nil => intro st; exact ⟨rfl, rfl⟩
  | cons item rest ih =>
    intro st
    unfold GeminiClass.itemsLoop
    cases hs : GeminiClass.itemStep value st item with
    | none => exact ⟨rfl, rfl⟩
    | some st2 =>
      have hstep := gmItemStep_shape value st st2 item hs
      have hrec := ih st2
      exact ⟨hrec.1.trans hstep.1, hrec.2.trans hstep.2⟩

lemma gmJsonParser_shape (st : GeminiStreamState) (value : String) :
    (GeminiClass.jsonParser st value).messageList.dropLast
        = st.messageList.dropLast ∧
    (GeminiClass.jsonParser st value).messageList.length
        = st.messageList.length := by
  have hdef : GeminiClass.jsonParser st value =
      (match tryParse (st.currentText ++ value) with
      | .error _ => { st with currentText := st.currentText ++ value }
      | .ok r =>
        match r.parsedResponse with
        | some parsed =>
          (fun L : GeminiStreamState × Bool =>
            if L.2 then L.1
            else if L.1.stop then
              ⟨L.1.result, L.1.currentText, L.1.stop, L.1.messageList,
                L.1.events ++ [.onComplete L.1.result]⟩
            else L.1)
            (GeminiClass.itemsLoop value
              ⟨st.result, r.remainingText, st.stop, st.messageList, st.events⟩
              (GeminiClass.jsonItems parsed))
        | none =>
          ⟨st.result, st.currentText ++ value, st.stop, st.messageList,
            st.events ++ [.onComplete st.result]⟩) := rfl
  rw [hdef]
  split
  · exact ⟨rfl, rfl⟩
  · split
    · simp only []
      split
      · exact gmItemsLoop_shape value _ _
      · split
        · exact ⟨(gmItemsLoop_shape value _ _).1, (gmItemsLoop_shape value _ _).2⟩
        · exact gmItemsLoop_shape value _ _
    · exact ⟨rfl, rfl⟩

lemma gmRunChunks_shape :
    ∀ (chunks : List String) (st : GeminiStreamState),
    (GeminiClass.runChunks st chunks).messageList.dropLast
        = st.messageList.dropLast ∧
    (GeminiClass.runChunks st chunks).messageList.length
        = st.messageList.length := by
  intro chunks
  induction chunks with
  | nil => intro st; exact ⟨rfl, rfl⟩
  | cons ck rest ih =>
    intro st
    have h1 := gmJsonParser_shape st ck
    have h2 := ih (GeminiClass.jsonParser st ck)
    exact ⟨h2.1.trans h1.1, h2.2.trans h1.2⟩

/-- C1: for every adapter and every run in which the stream delivers `N`
parsed delta frames followed by that vendor's terminal signal,
`onComplete` fires exactly once with the ordered concatenation of the
delta texts and the placeholder ends with exactly that concatenation.
The four generic-compatible adapters (OpenAI, MoonShot, DeepSeek, custom)
share the `[DONE]` sentinel; the ERNIE adapter terminates on an `is_end`
frame; the Gemini adapter's runs are those of `GDelivers`: any chunking
whose buffered fragments the growing-array decoder either defers on or
parses into well-formed delta elements, closing the array on the final
chunk. -/
theorem adapters_deltas_onComplete :
    (∀ (settingConfig : Option OpenAISettingConfig) (setting : Setting)
        (sess : ChatSession) (content : Option String) (datas cs : List String),
      (firstSome (settingConfig.bind (·.openAIKey)) setting.openAIKey).getD "" ≠ "" →
      List.Forall₂ (fun data c => JSON.parse data = some (deltaFrame c)) datas cs →
      (OpenAIClass.sendMessage settingConfig setting
          (.stream (datas ++ ["[DONE]"]) false) sess content).events.filter
          Event.isComplete = [.onComplete (concatTexts cs)] ∧
      (OpenAIClass.sendMessage settingConfig setting
          (.stream (datas ++ ["[DONE]"]) false) sess content).messageList.getLast?
        = some ⟨Role.assistant, concatTexts cs, none⟩) ∧
    (∀ (setting : Setting) (sess : ChatSession) (content : Option String)
        (datas cs : List String),
      setting.moonShotKey.getD "" ≠ "" →
      List.Forall₂ (fun data c => JSON.parse data = some (deltaFrame c)) datas cs →
      (MoonShotClass.sendMessage setting
          (.stream (datas ++ ["[DONE]"]) false) sess content).events.filter
          Event.isComplete = [.onComplete (concatTexts cs)] ∧
      (MoonShotClass.sendMessage setting
          (.stream (datas ++ ["[DONE]"]) false) sess content).messageList.getLast?
        = some ⟨Role.assistant, concatTexts cs, none⟩) ∧
    (∀ (settingConfigKey : Option String) (setting : Setting)
        (sess : ChatSession) (content : Option String) (datas cs : List String),
      (firstSome settingConfigKey setting.deepSeekApiKey).getD "" ≠ "" →
      List.Forall₂ (fun data c => JSON.parse data = some (deltaFrame c)) datas cs →
      (DeepSeekClass.sendMessage settingConfigKey setting
          (.stream (datas ++ ["[DONE]"]) false) sess content).events.filter
          Event.isComplete = [.onComplete (concatTexts cs)] ∧
      (DeepSeekClass.sendMessage settingConfigKey setting
          (.stream (datas ++ ["[DONE]"]) false) sess content).messageList.getLast?
        = some ⟨Role.assistant, concatTexts cs, none⟩) ∧
    (∀ (setting : Setting) (sess : ChatSession) (content : Option String)
        (datas cs : List String),
      setting.customAIAddress.getD "" ≠ "" →
      List.Forall₂ (fun data c => JSON.parse data = some (deltaFrame c)) datas cs →
      (CustomAIClass.sendMessage setting
          (.stream (datas ++ ["[DONE]"]) false) sess content).events.filter
          Event.isComplete = [.onComplete (concatTexts cs)] ∧
      (CustomAIClass.sendMessage setting
          (.stream (datas ++ ["[DONE]"]) false) sess content).messageList.getLast?
        = some ⟨Role.assistant, concatTexts cs, none⟩) ∧
    (∀ (setting : Setting) (sess : ChatSession) (content : Option String)
        (datas cs : List String) (endData : String),
      setting.wenxinToken.getD "" ≠ "" →
      List.Forall₂ (fun data c => JSON.parse data = some (wenxinDeltaJson c)) datas cs →
      JSON.parse endData = some wenxinEndJson →
      (WenxinClass.sendMessage setting (.stream (datas ++ [endData]) false) sess
          content).events.filter Event.isComplete = [.onComplete (concatTexts cs)] ∧
      (WenxinClass.sendMessage setting (.stream (datas ++ [endData]) false) sess
          content).messageList.getLast? = some ⟨Role.assistant, concatTexts cs, none⟩) ∧
    (∀ (setting : Setting) (sess : ChatSession) (content : Option String)
        (chunks texts : List String),
      setting.geminiKey.getD "" ≠ "" →
      GDelivers "" chunks texts →
      (GeminiClass.sendMessage setting (.stream chunks false) sess
          content).events.filter Event.isComplete
        = [.onComplete (concatTexts texts)] ∧
      (GeminiClass.sendMessage setting (.stream chunks false) sess
          content).messageList.getLast?
        = some ⟨Role.assistant, concatTexts texts, none⟩) := by
  refine ⟨?_, ?_, ?_, ?_, ?_, ?_⟩
  · intro settingConfig setting sess content datas cs hkey hf
    have hrun := oaHandleStream_deltas datas cs hf "" ""
      (pushUserContent sess.messageList content) none [Event.onBeforeRequest]
    simp only [OpenAIClass.sendMessage]
    rw [if_neg hkey]
    simp only [hrun]
    constructor
    · simp [List.filter_append, genEvents_filter_isComplete, List.filter,
        Event.isComplete]
    · simp [List.getLast?_concat, String.empty_append]
  · intro setting sess content datas cs hkey hf
    have hrun := msHandleStream_deltas datas cs hf "" ""
      (pushUserContent sess.messageList content) none [Event.onBeforeRequest]
    simp only [MoonShotClass.sendMessage]
    rw [if_neg hkey]
    simp only [hrun]
    constructor
    · simp [List.filter_append, genEvents_filter_isComplete, List.filter,
        Event.isComplete]
    · simp [List.getLast?_concat, String.empty_append]
  · intro settingConfigKey setting sess content datas cs hkey hf
    have hrun := dsHandleStream_deltas datas cs hf "" ""
      (pushUserContent sess.messageList content) none [Event.onBeforeRequest]
    simp only [DeepSeekClass.sendMessage]
    rw [if_neg hkey]
    simp only [hrun]
    constructor
    · simp [List.filter_append, genEvents_filter_isComplete, List.filter,
        Event.isComplete]
    · simp [List.getLast?_concat, String.empty_append]
  · intro setting sess content datas cs hkey hf
    have hrun := caHandleStream_deltas datas cs hf "" ""
      (pushUserContent sess.messageList content) none [Event.onBeforeRequest]
    simp only [CustomAIClass.sendMessage]
    rw [if_neg hkey]
    simp only [hrun]
    constructor
    · simp [List.filter_append, genEvents_filter_isComplete, List.filter,
        Event.isComplete]
    · simp [List.getLast?_concat, String.empty_append]
  · intro setting sess content datas cs endData htok hf hend
    have hrun := wxHandleStream_deltas datas cs hf endData hend "" ""
      (formateMessage "wenxin" (pushUserContent sess.messageList content)) none
      [Event.onBeforeRequest]
    simp only [WenxinClass.sendMessage]
    rw [if_neg htok]
    rw [formateMessage_wenxin_concat_placeholder]
    simp only [hrun]
    constructor
    · simp [List.filter_append, genEvents_filter_isComplete, List.filter,
        Event.isComplete]
    · simp [List.getLast?_concat, String.empty_append]
  · intro setting sess content chunks texts hkey hdel
    have hrun := gmRunChunks_delivery "" chunks texts hdel ""
      (pushUserContent sess.messageList content) none [Event.onBeforeRequest]
    simp only [GeminiClass.sendMessage]
    rw [if_neg hkey]
    simp only [hrun]
    constructor
    · simp [List.filter_append, genEvents_filter_isComplete, List.filter,
        Event.isComplete]
    · simp [List.getLast?_concat, String.empty_append]

/-- Witness for C1: the spec's generic scenario (`"Hi"`, `" there"`,
`[DONE]`) on the OpenAI adapter, an ERNIE run with one delta and the
`is_end` frame, and a Gemini run with both deltas in one closing chunk. -/
theorem adapters_deltas_onComplete_witness :
    ((OpenAIClass.sendMessage none oaSetting
        (.stream ([frameHi, frameThere] ++ ["[DONE]"]) false) ⟨false, []⟩
        (some "hello")).events.filter Event.isComplete
      = [.onComplete (concatTexts ["Hi", " there"])] ∧
     (OpenAIClass.sendMessage none oaSetting
        (.stream ([frameHi, frameThere] ++ ["[DONE]"]) false) ⟨false, []⟩
        (some "hello")).messageList.getLast?
      = some ⟨Role.assistant, concatTexts ["Hi", " there"], none⟩) ∧
    ((MoonShotClass.sendMessage { Setting.empty with moonShotKey := some "mk" }
        (.stream ([frameHi] ++ ["[DONE]"]) false) ⟨false, []⟩
        (some "hello")).events.filter Event.isComplete
      = [.onComplete (concatTexts ["Hi"])]) ∧
    ((DeepSeekClass.sendMessage none { Setting.empty with deepSeekApiKey := some "dk" }
        (.stream ([frameHi] ++ ["[DONE]"]) false) ⟨false, []⟩
        (some "hello")).events.filter Event.isComplete
      = [.onComplete (concatTexts ["Hi"])]) ∧
    ((CustomAIClass.sendMessage { Setting.empty with customAIAddress := some "http://x" }
        (.stream ([frameHi] ++ ["[DONE]"]) false) ⟨false, []⟩
        (some "hello")).events.filter Event.isComplete
      = [.onComplete (concatTexts ["Hi"])]) ∧
    ((WenxinClass.sendMessage wxSetting (.stream ([wxFrame "Hi"] ++ [wxEnd]) false)
        ⟨false, []⟩ (some "hello")).events.filter Event.isComplete
      = [.onComplete (concatTexts ["Hi"])] ∧
     (WenxinClass.sendMessage wxSetting (.stream ([wxFrame "Hi"] ++ [wxEnd]) false)
        ⟨false, []⟩ (some "hello")).messageList.getLast?
      = some ⟨Role.assistant, concatTexts ["Hi"], none⟩) ∧
    ((GeminiClass.sendMessage gmSetting
        (.stream ["[" ++ gElem "Hi" ++ "," ++ gElem " there" ++ "]"] false)
        ⟨false, []⟩ (some "hello")).events.filter Event.isComplete
      = [.onComplete (concatTexts ["Hi", " there"])] ∧
     (GeminiClass.sendMessage gmSetting
        (.stream ["[" ++ gElem "Hi" ++ "," ++ gElem " there" ++ "]"] false)
        ⟨false, []⟩ (some "hello")).messageList.getLast?
      = some ⟨Role.assistant, concatTexts ["Hi", " there"], none⟩) :=
  ⟨adapters_deltas_onComplete.1 none oaSetting ⟨false, []⟩ (some "hello")
      [frameHi, frameThere] ["Hi", " there"] (by decide)
      (List.Forall₂.cons rfl (List.Forall₂.cons rfl List.Forall₂.nil)),
   (adapters_deltas_onComplete.2.1 { Setting.empty with moonShotKey := some "mk" }
      ⟨false, []⟩ (some "hello") [frameHi] ["Hi"] (by decide)
      (List.Forall₂.cons rfl List.Forall₂.nil)).1,
   (adapters_deltas_onComplete.2.2.1 none
      { Setting.empty with deepSeekApiKey := some "dk" }
      ⟨false, []⟩ (some "hello") [frameHi] ["Hi"] (by decide)
      (List.Forall₂.cons rfl List.Forall₂.nil)).1,
   (adapters_deltas_onComplete.2.2.2.1
      { Setting.empty with customAIAddress := some "http://x" }
      ⟨false, []⟩ (some "hello") [frameHi] ["Hi"] (by decide)
      (List.Forall₂.cons rfl List.Forall₂.nil)).1,
   adapters_deltas_onComplete.2.2.2.2.1 wxSetting ⟨false, []⟩ (some "hello")
      [wxFrame "Hi"] ["Hi"] wxEnd (by decide)
      (List.Forall₂.cons rfl List.Forall₂.nil) rfl,
   adapters_deltas_onComplete.2.2.2.2.2 gmSetting ⟨false, []⟩ (some "hello")
      ["[" ++ gElem "Hi" ++ "," ++ gElem " there" ++ "]"] ["Hi", " there"]
      (by decide)
      (GDelivers.last "" ("[" ++ gElem "Hi" ++ "," ++ gElem " there" ++ "]")
        ["Hi", " there"] rfl (by decide) rfl)⟩

/-- C2 counterexample: the ERNIE adapter with no AccessToken configured
issues no request but also invokes no `onError` at all (it only notifies
the toast sink), contradicting the claim that every adapter invokes the
caller's `onError` hook on a missing credential. -/
theorem WenxinClass.missing_token_no_onError :
    (WenxinClass.sendMessage Setting.empty (.stream [] false) ⟨false, []⟩
        (some "hello")).request = none ∧
    ((WenxinClass.sendMessage Setting.empty (.stream [] false) ⟨false, []⟩
        (some "hello")).events.any Event.isOnError) = false ∧
    (WenxinClass.sendMessage Setting.empty (.stream [] false) ⟨false, []⟩
        (some "hello")).events = [.toastError (.str "文心一言AccessToken为空")] :=
  ⟨rfl, rfl, rfl⟩

/-- C2 (amended): with the required credential missing every adapter
short-circuits without issuing a request; the generic, MoonShot and
DeepSeek adapters invoke `onError` with a descriptive message, while the
ERNIE, Gemini and custom adapters only notify the toast sink and invoke no
callback. -/
theorem missing_credential_short_circuit :
    (∀ (settingConfig : Option OpenAISettingConfig) (setting : Setting)
        (resp : HttpResponse) (sess : ChatSession) (content : Option String),
      (firstSome (settingConfig.bind (·.openAIKey)) setting.openAIKey).getD "" = "" →
      (OpenAIClass.sendMessage settingConfig setting resp sess content).request = none ∧
      (OpenAIClass.sendMessage settingConfig setting resp sess content).events
        = [.onBeforeRequest, .onError (.str "apiKey is empty")]) ∧
    (∀ (setting : Setting) (resp : HttpResponse) (sess : ChatSession)
        (content : Option String),
      setting.moonShotKey.getD "" = "" →
      (MoonShotClass.sendMessage setting resp sess content).request = none ∧
      (MoonShotClass.sendMessage setting resp sess content).events
        = [.onBeforeRequest, .onError (.str "MoonShot API密钥为空")]) ∧
    (∀ (settingConfigKey : Option String) (setting : Setting) (resp : HttpResponse)
        (sess : ChatSession) (content : Option String),
      (firstSome settingConfigKey setting.deepSeekApiKey).getD "" = "" →
      (DeepSeekClass.sendMessage settingConfigKey setting resp sess content).request = none ∧
      (DeepSeekClass.sendMessage settingConfigKey setting resp sess content).events
        = [.onBeforeRequest, .onError (.str "DeepSeek API密钥为空")]) ∧
    (∀ (setting : Setting) (resp : HttpResponse) (sess : ChatSession)
        (content : Option String),
      setting.wenxinToken.getD "" = "" →
      (WenxinClass.sendMessage setting resp sess content).request = none ∧
      (WenxinClass.sendMessage setting resp sess content).events
        = [.toastError (.str "文心一言AccessToken为空")]) ∧
    (∀ (setting : Setting) (resp : HttpResponse) (sess : ChatSession)
        (content : Option String),
      setting.geminiKey.getD "" = "" →
      (GeminiClass.sendMessage setting resp sess content).request = none ∧
      (GeminiClass.sendMessage setting resp sess content).events
        = [.toastError (.str "Gemini API密钥为空")]) ∧
    (∀ (setting : Setting) (resp : HttpResponse) (sess : ChatSession)
        (content : Option String),
      setting.customAIAddress.getD "" = "" →
      (CustomAIClass.sendMessage setting resp sess content).request = none ∧
      (CustomAIClass.sendMessage setting resp sess content).events
        = [.onBeforeRequest, .toastError (.str "url is empty")]) := by
  refine ⟨?_, ?_, ?_, ?_, ?_, ?_⟩
  · intro settingConfig setting resp sess content h
    simp only [OpenAIClass.sendMessage]
    rw [if_pos h]
    exact ⟨rfl, rfl⟩
  · intro setting resp sess content h
    simp only [MoonShotClass.sendMessage]
    rw [if_pos h]
    exact ⟨rfl, rfl⟩
  · intro settingConfigKey setting resp sess content h
    simp only [DeepSeekClass.sendMessage]
    rw [if_pos h]
    exact ⟨rfl, rfl⟩
  · intro setting resp sess content h
    simp only [WenxinClass.sendMessage]
    rw [if_pos h]
    exact ⟨rfl, rfl⟩
  · intro setting resp sess content h
    simp only [GeminiClass.sendMessage]
    rw [if_pos h]
    exact ⟨rfl, rfl⟩
  · intro setting resp sess content h
    simp only [CustomAIClass.sendMessage]
    rw [if_pos h]
    exact ⟨rfl, rfl⟩

/-- Witness for the amended C2 at concrete empty settings. -/
theorem missing_credential_short_circuit_witness :
    ((OpenAIClass.sendMessage none Setting.empty (.stream [] false) ⟨false, []⟩
        (some "hello")).request = none ∧
     (OpenAIClass.sendMessage none Setting.empty (.stream [] false) ⟨false, []⟩
        (some "hello")).events = [.onBeforeRequest, .onError (.str "apiKey is empty")]) ∧
    ((GeminiClass.sendMessage Setting.empty (.stream [] false) ⟨false, []⟩
        (some "hello")).request = none ∧
     (GeminiClass.sendMessage Setting.empty (.stream [] false) ⟨false, []⟩
        (some "hello")).events = [.toastError (.str "Gemini API密钥为空")]) :=
  ⟨missing_credential_short_circuit.1 none Setting.empty (.stream [] false)
      ⟨false, []⟩ (some "hello") rfl,
   missing_credential_short_circuit.2.2.2.2.1 Setting.empty (.stream [] false)
      ⟨false, []⟩ (some "hello") rfl⟩

/-- C3 / code bug: `abort()` mid-stream on the Gemini adapter rejects the
awaited `reader.read()` and the surrounding `catch` invokes
`onError("Gemini请求失败")` for the aborted call, although cancellation must
not be reported as an error; the `handleStream`-based adapters leave no
callback (second conjunct) and a `send` on a session whose token was
tripped still issues a request because the controller is replaced (third
conjunct). -/
theorem GeminiClass.abort_fires_onError :
    (GeminiClass.sendMessage gmSetting (.stream ["[\x7b\"candidates\""] true)
        ⟨false, []⟩ (some "hello")).events
      = [.onBeforeRequest, .onError (.str "Gemini请求失败")] ∧
    (OpenAIClass.sendMessage none oaSetting (.stream [frameHi] true)
        ⟨false, []⟩ (some "hello")).events
      = [.onBeforeRequest, .onGenerating "Hi"] ∧
    (OpenAIClass.sendMessage none oaSetting (.stream [] false) ⟨true, []⟩
        (some "hello")).request
      = some ⟨defaultSetting.openAIAddress, "sk", defaultSetting.openAIModel,
          [⟨Role.user, "hello", none⟩]⟩ :=
  ⟨rfl, rfl, rfl⟩

/-- C4 counterexample, at the spec's own chunking `"["`, then a complete
element, then `",{...}]"`: the decoder *does* parse the first chunk `"["`
alone (bracket-completed to `"[]"`, successfully, clearing the buffer),
and after the second chunk it has yielded nothing — no `onGenerating`, an
empty cumulative result, and an untouched placeholder — contradicting
"yields element 1 after chunk 2 and never attempts to parse chunk 1 alone";
and `tryParse` throws on an incomplete bracketed buffer instead of
deferring. -/
theorem gemini_bracket_chunks_counterexample :
    tryParse "[" = .ok ⟨"", some (Json.arr [])⟩ ∧
    (GeminiClass.runChunks gemSeed ["["]).currentText = "" ∧
    ((GeminiClass.runChunks gemSeed ["[", gElem "A"]).events.any
        Event.isOnGenerating) = false ∧
    (GeminiClass.runChunks gemSeed ["[", gElem "A"]).result = "" ∧
    (GeminiClass.runChunks gemSeed ["[", gElem "A"]).messageList
      = [⟨Role.user, "hello", none⟩, ⟨Role.assistant, "", none⟩] ∧
    tryParse "[\x7b\"candidates\""
      = .error ("无效的JSON格式: " ++ "[\x7b\"candidates\"]") :=
  ⟨rfl, rfl, rfl, rfl, rfl, rfl⟩

/-- C4 (amended): on the chunk sequence `"["`, `{element 1}`,
`",{element 2}]"` the decoder bracket-completes the lone `"["` to `"[]"`,
parses it successfully as an empty array and clears the buffer; the later
chunks therefore start with neither `[` nor `,`, are treated as non-JSON
text (`parsedResponse === null`), and no element is ever yielded — instead
`onComplete("")` fires after each of them while the buffer keeps the raw
text.  On a bracket-normalised buffer that is still incomplete, `tryParse`
throws rather than deferring; the read loop only continues because the
rejection of the un-awaited `jsonParser` promise is never observed. -/
theorem gemini_bracket_chunks_behavior :
    tryParse "[" = .ok ⟨"", some (Json.arr [])⟩ ∧
    (GeminiClass.runChunks gemSeed ["[", gElem "A", "," ++ gElem "B" ++ "]"]).events
      = [.onComplete "", .onComplete ""] ∧
    (GeminiClass.runChunks gemSeed ["[", gElem "A", "," ++ gElem "B" ++ "]"]).result
      = "" ∧
    (GeminiClass.runChunks gemSeed ["[", gElem "A", "," ++ gElem "B" ++ "]"]).currentText
      = gElem "A" ++ ("," ++ gElem "B" ++ "]") ∧
    (GeminiClass.runChunks gemSeed ["[", gElem "A", "," ++ gElem "B" ++ "]"]).messageList
      = [⟨Role.user, "hello", none⟩, ⟨Role.assistant, "", none⟩] ∧
    (GeminiClass.jsonParser ⟨"", "[\x7b\"candidates\"", false, gemSeed.messageList,
        []⟩ "").currentText = "[\x7b\"candidates\"" :=
  ⟨rfl, rfl, rfl, rfl, rfl, rfl⟩

lemma GeminiClass.itemStep_dropLast (value : String) (st st2 : GeminiStreamState)
    (item : Json) (h : GeminiClass.itemStep value st item = some st2) :
    st2.messageList.dropLast = st.messageList.dropLast := by
  unfold GeminiClass.itemStep at h
  simp only [] at h
  repeat' split at h
  all_goals first
    | (cases h; exact setLast_dropLast _ _)
    | (cases h)

/-- C7: one delta-application step — the indexed `map` every adapter runs
per delta — rewrites only the final list entry (appending for the SSE
adapters, replacing with the cumulative result for Gemini); every earlier
message is returned unchanged, and so every successful step of the
OpenAI-style handler, the ERNIE handler and the Gemini item loop leaves
the prefix before the placeholder equal to its prior value. -/
theorem delta_step_mutates_only_last :
    (∀ (ms : List Message) (t : String), (updateLast ms t).dropLast = ms.dropLast) ∧
    (∀ (ms pre : List Message) (x : Message) (t : String), ms = pre ++ [x] →
      updateLast ms t = pre ++ [⟨x.role, x.content ++ t, x.isError⟩]) ∧
    (∀ (ms : List Message) (r : String), (setLast ms r).dropLast = ms.dropLast) ∧
    (∀ (ms pre : List Message) (x : Message) (r : String), ms = pre ++ [x] →
      setLast ms r = pre ++ [⟨x.role, r, x.isError⟩]) ∧
    (∀ (st st2 : StreamState) (d : String), OpenAIClass.onData st d = some st2 →
      st2.messageList.dropLast = st.messageList.dropLast) ∧
    (∀ (st st2 : StreamState) (d : String), WenxinClass.onData st d = some st2 →
      st2.messageList.dropLast = st.messageList.dropLast) ∧
    (∀ (value : String) (st st2 : GeminiStreamState) (item : Json),
      GeminiClass.itemStep value st item = some st2 →
      st2.messageList.dropLast = st.messageList.dropLast) := by
  refine ⟨updateLast_dropLast, ?_, setLast_dropLast, ?_,
    fun st st2 d h => (oaOnData_shape st st2 d h).1,
    fun st st2 d h => (wxOnData_shape st st2 d h).1,
    fun value st st2 item h => GeminiClass.itemStep_dropLast value st st2 item h⟩
  · intro ms pre x t h
    rw [h, updateLast_concat]
  · intro ms pre x r h
    rw [h, setLast_concat]

theorem delta_step_mutates_only_last_witness :
    updateLast [⟨Role.user, "hello", none⟩, ⟨Role.assistant, "Hi", none⟩] " there"
      = [⟨Role.user, "hello", none⟩] ++ [⟨Role.assistant, "Hi" ++ " there", none⟩] ∧
    setLast [⟨Role.user, "hello", none⟩, ⟨Role.assistant, "Hi", none⟩] "Hi there"
      = [⟨Role.user, "hello", none⟩] ++ [⟨Role.assistant, "Hi there", none⟩] ∧
    (OpenAIClass.onData ⟨"", [⟨Role.user, "hello", none⟩, ⟨Role.assistant, "", none⟩],
        []⟩ frameHi = some ⟨"Hi", [⟨Role.user, "hello", none⟩,
          ⟨Role.assistant, "Hi", none⟩], [.onGenerating "Hi"]⟩ →
      ([⟨Role.user, "hello", none⟩, ⟨Role.assistant, "Hi", none⟩] : List Message).dropLast
        = ([⟨Role.user, "hello", none⟩, ⟨Role.assistant, "", none⟩] : List Message).dropLast) :=
  ⟨delta_step_mutates_only_last.2.1 _ [⟨Role.user, "hello", none⟩]
      ⟨Role.assistant, "Hi", none⟩ " there" rfl,
   delta_step_mutates_only_last.2.2.2.1 _ [⟨Role.user, "hello", none⟩]
      ⟨Role.assistant, "Hi", none⟩ "Hi there" rfl,
   fun h => delta_step_mutates_only_last.2.2.2.2.1 _ _ frameHi h⟩

/-- C8: the engine selector is total — it returns the matching session
constructor for each of the six known identifiers and `undefined` (never
a thrown error) for every other string. -/
theorem getChat_total :
    (∀ engine : String, engine ∉ knownEngines → getChat engine = none) ∧
    getChat "openai" = some .OpenAIClass ∧
    getChat "gemini" = some .GeminiClass ∧
    getChat "wenxin" = some .WenxinClass ∧
    getChat "moonshot" = some .MoonShotClass ∧
    getChat "deepseek" = some .DeepSeekClass ∧
    getChat "custom" = some .CustomAIClass := by
  refine ⟨?_, rfl, rfl, rfl, rfl, rfl, rfl⟩
  intro engine he
  unfold getChat
  split
  all_goals first
    | rfl
    | (exfalso; apply he; simp_all [knownEngines])

theorem getChat_total_witness :
    "youdao" ∉ knownEngines ∧ getChat "youdao" = none :=
  ⟨by decide, getChat_total.1 "youdao" (by decide)⟩

/-- C9: in every adapter the credential check precedes both the user-turn
push and the placeholder push, so a short-circuited `send()` leaves the
session's message list untouched (and issues no request). -/
theorem missing_credential_messageList_unchanged :
    (∀ (settingConfig : Option OpenAISettingConfig) (setting : Setting)
        (resp : HttpResponse) (sess : ChatSession) (content : Option String),
      (firstSome (settingConfig.bind (·.openAIKey)) setting.openAIKey).getD "" = "" →
      (OpenAIClass.sendMessage settingConfig setting resp sess content).messageList
        = sess.messageList ∧
      (OpenAIClass.sendMessage settingConfig setting resp sess content).request = none) ∧
    (∀ (setting : Setting) (resp : HttpResponse) (sess : ChatSession)
        (content : Option String),
      setting.moonShotKey.getD "" = "" →
      (MoonShotClass.sendMessage setting resp sess content).messageList
        = sess.messageList ∧
      (MoonShotClass.sendMessage setting resp sess content).request = none) ∧
    (∀ (settingConfigKey : Option String) (setting : Setting) (resp : HttpResponse)
        (sess : ChatSession) (content : Option String),
      (firstSome settingConfigKey setting.deepSeekApiKey).getD "" = "" →
      (DeepSeekClass.sendMessage settingConfigKey setting resp sess content).messageList
        = sess.messageList ∧
      (DeepSeekClass.sendMessage settingConfigKey setting resp sess content).request
        = none) ∧
    (∀ (setting : Setting) (resp : HttpResponse) (sess : ChatSession)
        (content : Option String),
      setting.wenxinToken.getD "" = "" →
      (WenxinClass.sendMessage setting resp sess content).messageList
        = sess.messageList ∧
      (WenxinClass.sendMessage setting resp sess content).request = none) ∧
    (∀ (setting : Setting) (resp : HttpResponse) (sess : ChatSession)
        (content : Option String),
      setting.geminiKey.getD "" = "" →
      (GeminiClass.sendMessage setting resp sess content).messageList
        = sess.messageList ∧
      (GeminiClass.sendMessage setting resp sess content).request = none) ∧
    (∀ (setting : Setting) (resp : HttpResponse) (sess : ChatSession)
        (content : Option String),
      setting.customAIAddress.getD "" = "" →
      (CustomAIClass.sendMessage setting resp sess content).messageList
        = sess.messageList ∧
      (CustomAIClass.sendMessage setting resp sess content).request = none) := by
  refine ⟨?_, ?_, ?_, ?_, ?_, ?_⟩
  · intro settingConfig setting resp sess content h
    simp only [OpenAIClass.sendMessage]
    rw [if_pos h]
    exact ⟨rfl, rfl⟩
  · intro setting resp sess content h
    simp only [MoonShotClass.sendMessage]
    rw [if_pos h]
    exact ⟨rfl, rfl⟩
  · intro settingConfigKey setting resp sess content h
    simp only [DeepSeekClass.sendMessage]
    rw [if_pos h]
    exact ⟨rfl, rfl⟩
  · intro setting resp sess content h
    simp only [WenxinClass.sendMessage]
    rw [if_pos h]
    exact ⟨rfl, rfl⟩
  · intro setting resp sess content h
    simp only [GeminiClass.sendMessage]
    rw [if_pos h]
    exact ⟨rfl, rfl⟩
  · intro setting resp sess content h
    simp only [CustomAIClass.sendMessage]
    rw [if_pos h]
    exact ⟨rfl, rfl⟩

theorem missing_credential_messageList_unchanged_witness :
    ((OpenAIClass.sendMessage none Setting.empty (.stream [] false)
        ⟨false, [⟨Role.system, "seed", none⟩]⟩ (some "hello")).messageList
      = [⟨Role.system, "seed", none⟩] ∧
     (OpenAIClass.sendMessage none Setting.empty (.stream [] false)
        ⟨false, [⟨Role.system, "seed", none⟩]⟩ (some "hello")).request = none) ∧
    ((WenxinClass.sendMessage Setting.empty (.stream [] false)
        ⟨false, [⟨Role.system, "seed", none⟩]⟩ (some "hello")).messageList
      = [⟨Role.system, "seed", none⟩] ∧
     (WenxinClass.sendMessage Setting.empty (.stream [] false)
        ⟨false, [⟨Role.system, "seed", none⟩]⟩ (some "hello")).request = none) :=
  ⟨missing_credential_messageList_unchanged.1 none Setting.empty (.stream [] false)
      ⟨false, [⟨Role.system, "seed", none⟩]⟩ (some "hello") rfl,
   missing_credential_messageList_unchanged.2.2.2.1 Setting.empty (.stream [] false)
      ⟨false, [⟨Role.system, "seed", none⟩]⟩ (some "hello") rfl⟩

lemma formateMessage_wenxin_no_system (l : List Message) :
    hasSystemRole (formateMessage "wenxin" l) = false := by
  rw [hasSystemRole, List.any_eq_false]
  intro m hm
  simp only [formateMessage, List.mem_map, reduceIte] at hm
  obtain ⟨x, _, rfl⟩ := hm
  by_cases hr : x.role = Role.system <;> simp [hr]

lemma hasSystemRole_dropLast (l : List Message) (h : hasSystemRole l = false) :
    hasSystemRole l.dropLast = false := by
  rw [hasSystemRole, List.any_eq_false] at h ⊢
  intro m hm
  exact h m (List.dropLast_subset l hm)

/-- C5: with a token configured, any ERNIE `sendMessage` issues a request
whose body contains no `system`-role entry, and the entry at the position
of a seeded `system` message carries role `user` with the same content. -/
theorem WenxinClass.system_role_rewritten
    (setting : Setting) (resp : HttpResponse) (ab : Bool) (ms : List Message)
    (content : String) (htok : setting.wenxinToken.getD "" ≠ "")
    (i : Nat) (hi : i < ms.length) (hrole : (ms.get ⟨i, hi⟩).role = Role.system) :
    ∃ r, (WenxinClass.sendMessage setting resp ⟨ab, ms⟩ (some content)).request
        = some r ∧
      hasSystemRole r.messages = false ∧
      r.messages[i]? = some ⟨Role.user, (ms.get ⟨i, hi⟩).content, none⟩ := by
  have hreq : (WenxinClass.sendMessage setting resp ⟨ab, ms⟩ (some content)).request
      = some ⟨"https://aip.baidubce.com/rpc/2.0/ai_custom/v1/wenxinworkshop/chat/ernie_bot_8k?access_token="
          ++ setting.wenxinToken.getD "",
        (formateMessage "wenxin" (pushUserContent ms (some content)
          ++ [⟨Role.assistant, "", none⟩])).dropLast⟩ := by
    simp only [WenxinClass.sendMessage]
    rw [if_neg htok]
    cases resp <;> rfl
  refine ⟨_, hreq, ?_, ?_⟩
  · exact hasSystemRole_dropLast _ (formateMessage_wenxin_no_system _)
  · have hfm : formateMessage "wenxin" (pushUserContent ms (some content)
        ++ [⟨Role.assistant, "", none⟩])
        = (pushUserContent ms (some content)).map
            (fun m => ⟨if m.role = Role.system then Role.user else m.role, m.content, none⟩)
          ++ [⟨Role.assistant, "", none⟩] := by
      simp [formateMessage]
    rw [hfm, List.dropLast_concat, List.getElem?_map]
    have hpush : (pushUserContent ms (some content))[i]? = ms[i]? := by
      simp only [pushUserContent]
      by_cases hc : content = ""
      · simp [hc]
      · rw [if_neg hc]
        exact List.getElem?_append_left hi
    rw [hpush, List.getElem?_eq_getElem hi]
    rw [List.get_eq_getElem] at hrole
    simp [hrole]

lemma anyOverMap {α β : Type} (l : List α) (f : α → β) (p : β → Bool) :
    (l.map f).any p = l.any (p ∘ f) := by
  induction l with
  | nil => rfl
  | cons x xs ih => simp [ih, Function.comp]

lemma hasSystemRole_eq_of_roles (a b : List Message)
    (h : a.map Message.role = b.map Message.role) :
    hasSystemRole a = hasSystemRole b := by
  have ha : (a.map Message.role).any (fun r => r == Role.system)
      = a.any ((fun r => r == Role.system) ∘ Message.role) := anyOverMap a _ _
  have hb : (b.map Message.role).any (fun r => r == Role.system)
      = b.any ((fun r => r == Role.system) ∘ Message.role) := anyOverMap b _ _
  have hmap := congrArg (fun l : List Role => l.any (fun r => r == Role.system)) h
  exact ha.symm.trans (hmap.trans hb)

/-- C10: the role rewrite is applied to the session's *stored* list, not
only to the outgoing body — after any `sendMessage` that passes the token
check, the stored history carries no `system` role, and every later
`sendMessage` or `refresh` keeps it that way. -/
theorem WenxinClass.stored_history_system_free :
    (∀ (setting : Setting) (resp : HttpResponse) (sess : ChatSession)
        (content : Option String),
      setting.wenxinToken.getD "" ≠ "" →
      hasSystemRole (WenxinClass.sendMessage setting resp sess content).messageList
        = false) ∧
    (∀ (setting : Setting) (resp : HttpResponse) (sess : ChatSession)
        (content : Option String),
      hasSystemRole sess.messageList = false →
      hasSystemRole (WenxinClass.sendMessage setting resp sess content).messageList
        = false) ∧
    (∀ (setting : Setting) (resp : HttpResponse) (sess : ChatSession),
      hasSystemRole sess.messageList = false →
      hasSystemRole (WenxinClass.refresh setting resp sess).messageList = false) := by
  have h1 : ∀ (setting : Setting) (resp : HttpResponse) (sess : ChatSession)
      (content : Option String), setting.wenxinToken.getD "" ≠ "" →
      hasSystemRole (WenxinClass.sendMessage setting resp sess content).messageList
        = false := by
    intro setting resp sess content htok
    simp only [WenxinClass.sendMessage]
    rw [if_neg htok]
    cases resp with
    | failure body => exact formateMessage_wenxin_no_system _
    | stream frames abortedDuring =>
      have hsh := wxHandleStream_shape frames
        ⟨"", formateMessage "wenxin" (pushUserContent sess.messageList content
          ++ [⟨Role.assistant, "", none⟩]), [Event.onBeforeRequest]⟩
      exact (hasSystemRole_eq_of_roles _ _ hsh.2.2).trans
        (formateMessage_wenxin_no_system _)
  have h2 : ∀ (setting : Setting) (resp : HttpResponse) (sess : ChatSession)
      (content : Option String), hasSystemRole sess.messageList = false →
      hasSystemRole (WenxinClass.sendMessage setting resp sess content).messageList
        = false := by
    intro setting resp sess content hsys
    by_cases hc : setting.wenxinToken.getD "" = ""
    · simp only [WenxinClass.sendMessage]
      rw [if_pos hc]
      exact hsys
    · exact h1 setting resp sess content hc
  refine ⟨h1, h2, ?_⟩
  intro setting resp sess hsys
  unfold WenxinClass.refresh
  exact h2 setting resp _ none (hasSystemRole_dropLast _ hsys)

theorem WenxinClass.stored_history_system_free_witness :
    hasSystemRole (WenxinClass.sendMessage wxSetting (.stream [wxFrame "Hi"] false)
        ⟨false, [⟨Role.system, "You are helpful", none⟩]⟩ (some "hello")).messageList
      = false ∧
    hasSystemRole (WenxinClass.refresh wxSetting (.stream [] false)
        ⟨false, [⟨Role.user, "q", none⟩, ⟨Role.assistant, "A", none⟩]⟩).messageList
      = false :=
  ⟨WenxinClass.stored_history_system_free.1 wxSetting (.stream [wxFrame "Hi"] false)
      ⟨false, [⟨Role.system, "You are helpful", none⟩]⟩ (some "hello") (by decide),
   WenxinClass.stored_history_system_free.2.2 wxSetting (.stream [] false)
      ⟨false, [⟨Role.user, "q", none⟩, ⟨Role.assistant, "A", none⟩]⟩ rfl⟩

theorem WenxinClass.system_role_rewritten_witness :
    ∃ r, (WenxinClass.sendMessage wxSetting (.stream [] false)
        ⟨false, [⟨Role.system, "You are helpful", none⟩]⟩ (some "hi")).request
        = some r ∧
      hasSystemRole r.messages = false ∧
      r.messages[0]? = some ⟨Role.user,
        (([⟨Role.system, "You are helpful", none⟩] : List Message).get
          ⟨0, by decide⟩).content, none⟩ :=
  WenxinClass.system_role_rewritten wxSetting (.stream [] false) false
    [⟨Role.system, "You are helpful", none⟩] "hi" (by decide) 0 (by decide) rfl


/-- C6 counterexample: on the ERNIE adapter, `refresh()` with a
system-seeded history does not replay the prior list minus the final
assistant turn — `sendMessage` passes the replayed history through
`formateMessage`, so the transmitted body carries the seeded system
message with role `user` and the *stored* prefix is rewritten too. -/
theorem WenxinClass.refresh_rewrites_prefix :
    (WenxinClass.refresh wxSetting (.stream [] false)
        ⟨false, [⟨Role.system, "s", none⟩, ⟨Role.user, "q", none⟩,
          ⟨Role.assistant, "A", none⟩]⟩).request
      = some ⟨"https://aip.baidubce.com/rpc/2.0/ai_custom/v1/wenxinworkshop/chat/ernie_bot_8k?access_token="
          ++ "tok", [⟨Role.user, "s", none⟩, ⟨Role.user, "q", none⟩]⟩ ∧
    (WenxinClass.refresh wxSetting (.stream [] false)
        ⟨false, [⟨Role.system, "s", none⟩, ⟨Role.user, "q", none⟩,
          ⟨Role.assistant, "A", none⟩]⟩).messageList
      = [⟨Role.user, "s", none⟩, ⟨Role.user, "q", none⟩,
         ⟨Role.assistant, "", none⟩] ∧
    ([⟨Role.user, "s", none⟩, ⟨Role.user, "q", none⟩] : List Message)
      ≠ [⟨Role.system, "s", none⟩, ⟨Role.user, "q", none⟩] :=
  ⟨rfl, rfl, by decide⟩

/-- C6 (amended): when the session's list ends with an assistant turn,
`refresh()` drops that turn and replays `send()`.  In the five non-ERNIE
adapters the transmitted history equals the prior list minus the final
assistant turn (for Gemini, in its transposed wire shape), a fresh empty
assistant placeholder is appended, and the prefix before it is unchanged
at every point of the streamed run.  The ERNIE adapter additionally pipes
the replayed history through `formateMessage`, so its transmitted history
and stored prefix are the prior ones with every `system` role rewritten to
`user` (and `isError` dropped). -/
theorem refresh_replays_history :
    (∀ (settingConfig : Option OpenAISettingConfig) (setting : Setting)
        (frames : List String) (ab : Bool) (pre : List Message) (lastMsg : Message),
      (firstSome (settingConfig.bind (·.openAIKey)) setting.openAIKey).getD "" ≠ "" →
      lastMsg.role = Role.assistant →
      (∃ r, (OpenAIClass.refresh settingConfig setting (.stream frames false)
          ⟨ab, pre ++ [lastMsg]⟩).request = some r ∧ r.messages = pre) ∧
      (OpenAIClass.refresh settingConfig setting (.stream frames false)
          ⟨ab, pre ++ [lastMsg]⟩).messageList.dropLast = pre ∧
      (OpenAIClass.refresh settingConfig setting (.stream frames false)
          ⟨ab, pre ++ [lastMsg]⟩).messageList.length = pre.length + 1 ∧
      (frames = [] → (OpenAIClass.refresh settingConfig setting (.stream frames false)
          ⟨ab, pre ++ [lastMsg]⟩).messageList = pre ++ [⟨Role.assistant, "", none⟩])) ∧
    (∀ (setting : Setting) (frames : List String) (ab : Bool)
        (pre : List Message) (lastMsg : Message),
      setting.moonShotKey.getD "" ≠ "" →
      lastMsg.role = Role.assistant →
      (∃ r, (MoonShotClass.refresh setting (.stream frames false)
          ⟨ab, pre ++ [lastMsg]⟩).request = some r ∧ r.messages = pre) ∧
      (MoonShotClass.refresh setting (.stream frames false)
          ⟨ab, pre ++ [lastMsg]⟩).messageList.dropLast = pre ∧
      (MoonShotClass.refresh setting (.stream frames false)
          ⟨ab, pre ++ [lastMsg]⟩).messageList.length = pre.length + 1 ∧
      (frames = [] → (MoonShotClass.refresh setting (.stream frames false)
          ⟨ab, pre ++ [lastMsg]⟩).messageList = pre ++ [⟨Role.assistant, "", none⟩])) ∧
    (∀ (settingConfigKey : Option String) (setting : Setting) (frames : List String)
        (ab : Bool) (pre : List Message) (lastMsg : Message),
      (firstSome settingConfigKey setting.deepSeekApiKey).getD "" ≠ "" →
      lastMsg.role = Role.assistant →
      (∃ r, (DeepSeekClass.refresh settingConfigKey setting (.stream frames false)
          ⟨ab, pre ++ [lastMsg]⟩).request = some r ∧ r.messages = pre) ∧
      (DeepSeekClass.refresh settingConfigKey setting (.stream frames false)
          ⟨ab, pre ++ [lastMsg]⟩).messageList.dropLast = pre ∧
      (DeepSeekClass.refresh settingConfigKey setting (.stream frames false)
          ⟨ab, pre ++ [lastMsg]⟩).messageList.length = pre.length + 1 ∧
      (frames = [] → (DeepSeekClass.refresh settingConfigKey setting
          (.stream frames false) ⟨ab, pre ++ [lastMsg]⟩).messageList
        = pre ++ [⟨Role.assistant, "", none⟩])) ∧
    (∀ (setting : Setting) (frames : List String) (ab : Bool)
        (pre : List Message) (lastMsg : Message),
      setting.customAIAddress.getD "" ≠ "" →
      lastMsg.role = Role.assistant →
      (∃ r, (CustomAIClass.refresh setting (.stream frames false)
          ⟨ab, pre ++ [lastMsg]⟩).request = some r ∧ r.messages = pre) ∧
      (CustomAIClass.refresh setting (.stream frames false)
          ⟨ab, pre ++ [lastMsg]⟩).messageList.dropLast = pre ∧
      (CustomAIClass.refresh setting (.stream frames false)
          ⟨ab, pre ++ [lastMsg]⟩).messageList.length = pre.length + 1 ∧
      (frames = [] → (CustomAIClass.refresh setting (.stream frames false)
          ⟨ab, pre ++ [lastMsg]⟩).messageList = pre ++ [⟨Role.assistant, "", none⟩])) ∧
    (∀ (setting : Setting) (chunks : List String) (ab : Bool)
        (pre : List Message) (lastMsg : Message),
      setting.geminiKey.getD "" ≠ "" →
      lastMsg.role = Role.assistant →
      (∃ r, (GeminiClass.refresh setting (.stream chunks false)
          ⟨ab, pre ++ [lastMsg]⟩).request = some r ∧
        r.contents = GeminiClass.toBodyMessage pre) ∧
      (GeminiClass.refresh setting (.stream chunks false)
          ⟨ab, pre ++ [lastMsg]⟩).messageList.dropLast = pre ∧
      (GeminiClass.refresh setting (.stream chunks false)
          ⟨ab, pre ++ [lastMsg]⟩).messageList.length = pre.length + 1 ∧
      (chunks = [] → (GeminiClass.refresh setting (.stream chunks false)
          ⟨ab, pre ++ [lastMsg]⟩).messageList = pre ++ [⟨Role.assistant, "", none⟩])) ∧
    (∀ (setting : Setting) (frames : List String) (ab : Bool)
        (pre : List Message) (lastMsg : Message),
      setting.wenxinToken.getD "" ≠ "" →
      lastMsg.role = Role.assistant →
      (∃ r, (WenxinClass.refresh setting (.stream frames false)
          ⟨ab, pre ++ [lastMsg]⟩).request = some r ∧
        r.messages = formateMessage "wenxin" pre) ∧
      (WenxinClass.refresh setting (.stream frames false)
          ⟨ab, pre ++ [lastMsg]⟩).messageList.dropLast
        = formateMessage "wenxin" pre ∧
      (WenxinClass.refresh setting (.stream frames false)
          ⟨ab, pre ++ [lastMsg]⟩).messageList.length = pre.length + 1 ∧
      (frames = [] → (WenxinClass.refresh setting (.stream frames false)
          ⟨ab, pre ++ [lastMsg]⟩).messageList
        = formateMessage "wenxin" pre ++ [⟨Role.assistant, "", none⟩])) := by
  refine ⟨?_, ?_, ?_, ?_, ?_, ?_⟩
  · intro settingConfig setting frames ab pre lastMsg hkey _hrole
    have hd : OpenAIClass.refresh settingConfig setting (.stream frames false)
        ⟨ab, pre ++ [lastMsg]⟩
        = OpenAIClass.sendMessage settingConfig setting (.stream frames false)
          ⟨ab, pre⟩ none := by
      unfold OpenAIClass.refresh
      simp [List.dropLast_concat]
    rw [hd]
    have hshape := oaHandleStream_shape frames
      ⟨"", pre ++ [⟨Role.assistant, "", none⟩], [Event.onBeforeRequest]⟩
    simp only [OpenAIClass.sendMessage]
    rw [if_neg hkey]
    simp only [pushUserContent]
    refine ⟨⟨_, rfl, List.dropLast_concat⟩, ?_, ?_, ?_⟩
    · rw [hshape.1, List.dropLast_concat]
    · rw [hshape.2.1]
      simp
    · intro hfr
      subst hfr
      rfl
  · intro setting frames ab pre lastMsg hkey _hrole
    have hd : MoonShotClass.refresh setting (.stream frames false)
        ⟨ab, pre ++ [lastMsg]⟩
        = MoonShotClass.sendMessage setting (.stream frames false)
          ⟨ab, pre⟩ none := by
      unfold MoonShotClass.refresh
      simp [List.dropLast_concat]
    rw [hd]
    have hshape := msHandleStream_shape frames
      ⟨"", pre ++ [⟨Role.assistant, "", none⟩], [Event.onBeforeRequest]⟩
    simp only [MoonShotClass.sendMessage]
    rw [if_neg hkey]
    simp only [pushUserContent]
    refine ⟨⟨_, rfl, List.dropLast_concat⟩, ?_, ?_, ?_⟩
    · rw [hshape.1, List.dropLast_concat]
    · rw [hshape.2.1]
      simp
    · intro hfr
      subst hfr
      rfl
  · intro settingConfigKey setting frames ab pre lastMsg hkey _hrole
    have hd : DeepSeekClass.refresh settingConfigKey setting (.stream frames false)
        ⟨ab, pre ++ [lastMsg]⟩
        = DeepSeekClass.sendMessage settingConfigKey setting (.stream frames false)
          ⟨ab, pre⟩ none := by
      unfold DeepSeekClass.refresh
      simp [List.dropLast_concat]
    rw [hd]
    have hshape := dsHandleStream_shape frames
      ⟨"", pre ++ [⟨Role.assistant, "", none⟩], [Event.onBeforeRequest]⟩
    simp only [DeepSeekClass.sendMessage]
    rw [if_neg hkey]
    simp only [pushUserContent]
    refine ⟨⟨_, rfl, List.dropLast_concat⟩, ?_, ?_, ?_⟩
    · rw [hshape.1, List.dropLast_concat]
    · rw [hshape.2.1]
      simp
    · intro hfr
      subst hfr
      rfl
  · intro setting frames ab pre lastMsg hkey _hrole
    have hd : CustomAIClass.refresh setting (.stream frames false)
        ⟨ab, pre ++ [lastMsg]⟩
        = CustomAIClass.sendMessage setting (.stream frames false)
          ⟨ab, pre⟩ none := by
      unfold CustomAIClass.refresh
      simp [List.dropLast_concat]
    rw [hd]
    have hshape := caHandleStream_shape frames
      ⟨"", pre ++ [⟨Role.assistant, "", none⟩], [Event.onBeforeRequest]⟩
    simp only [CustomAIClass.sendMessage]
    rw [if_neg hkey]
    simp only [pushUserContent]
    refine ⟨⟨_, rfl, List.dropLast_concat⟩, ?_, ?_, ?_⟩
    · rw [hshape.1, List.dropLast_concat]
    · rw [hshape.2.1]
      simp
    · intro hfr
      subst hfr
      rfl
  · intro setting chunks ab pre lastMsg hkey _hrole
    have hd : GeminiClass.refresh setting (.stream chunks false)
        ⟨ab, pre ++ [lastMsg]⟩
        = GeminiClass.sendMessage setting (.stream chunks false)
          ⟨ab, pre⟩ none := by
      unfold GeminiClass.refresh
      simp [List.dropLast_concat]
    rw [hd]
    have hshape := gmRunChunks_shape chunks
      ⟨"", "", false, pre ++ [⟨Role.assistant, "", none⟩], [Event.onBeforeRequest]⟩
    simp only [GeminiClass.sendMessage]
    rw [if_neg hkey]
    simp only [pushUserContent]
    refine ⟨⟨_, rfl, ?_⟩, ?_, ?_, ?_⟩
    · rw [List.dropLast_concat]
    · rw [hshape.1, List.dropLast_concat]
    · rw [hshape.2]
      simp
    · intro hfr
      subst hfr
      rfl
  · intro setting frames ab pre lastMsg htok _hrole
    have hd : WenxinClass.refresh setting (.stream frames false)
        ⟨ab, pre ++ [lastMsg]⟩
        = WenxinClass.sendMessage setting (.stream frames false)
          ⟨ab, pre⟩ none := by
      unfold WenxinClass.refresh
      simp [List.dropLast_concat]
    rw [hd]
    have hshape := wxHandleStream_shape frames
      ⟨"", formateMessage "wenxin" pre ++ [⟨Role.assistant, "", none⟩],
        [Event.onBeforeRequest]⟩
    simp only [WenxinClass.sendMessage]
    rw [if_neg htok]
    simp only [pushUserContent]
    rw [formateMessage_wenxin_concat_placeholder]
    refine ⟨⟨_, rfl, List.dropLast_concat⟩, ?_, ?_, ?_⟩
    · rw [hshape.1, List.dropLast_concat]
    · rw [hshape.2.1]
      simp [formateMessage]
    · intro hfr
      subst hfr
      rfl

/-- Witness for the amended C6 at concrete sessions (generic, Gemini and
ERNIE adapters). -/
theorem refresh_replays_history_witness :
    ((∃ r, (OpenAIClass.refresh none oaSetting (.stream [] false)
        ⟨false, [⟨Role.user, "q", none⟩] ++ [⟨Role.assistant, "A", none⟩]⟩).request
          = some r ∧ r.messages = [⟨Role.user, "q", none⟩]) ∧
     (OpenAIClass.refresh none oaSetting (.stream [] false)
        ⟨false, [⟨Role.user, "q", none⟩] ++ [⟨Role.assistant, "A", none⟩]⟩).messageList.dropLast
      = [⟨Role.user, "q", none⟩] ∧
     (OpenAIClass.refresh none oaSetting (.stream [] false)
        ⟨false, [⟨Role.user, "q", none⟩] ++ [⟨Role.assistant, "A", none⟩]⟩).messageList.length
      = [(⟨Role.user, "q", none⟩ : Message)].length + 1 ∧
     (([] : List String) = [] → (OpenAIClass.refresh none oaSetting (.stream [] false)
        ⟨false, [⟨Role.user, "q", none⟩] ++ [⟨Role.assistant, "A", none⟩]⟩).messageList
      = [⟨Role.user, "q", none⟩] ++ [⟨Role.assistant, "", none⟩])) ∧
    ((∃ r, (GeminiClass.refresh gmSetting (.stream [] false)
        ⟨false, [⟨Role.user, "q", none⟩] ++ [⟨Role.assistant, "A", none⟩]⟩).request
          = some r ∧
        r.contents = GeminiClass.toBodyMessage [⟨Role.user, "q", none⟩]) ∧
     (GeminiClass.refresh gmSetting (.stream [] false)
        ⟨false, [⟨Role.user, "q", none⟩] ++ [⟨Role.assistant, "A", none⟩]⟩).messageList.dropLast
      = [⟨Role.user, "q", none⟩] ∧
     (GeminiClass.refresh gmSetting (.stream [] false)
        ⟨false, [⟨Role.user, "q", none⟩] ++ [⟨Role.assistant, "A", none⟩]⟩).messageList.length
      = [(⟨Role.user, "q", none⟩ : Message)].length + 1 ∧
     (([] : List String) = [] → (GeminiClass.refresh gmSetting (.stream [] false)
        ⟨false, [⟨Role.user, "q", none⟩] ++ [⟨Role.assistant, "A", none⟩]⟩).messageList
      = [⟨Role.user, "q", none⟩] ++ [⟨Role.assistant, "", none⟩])) ∧
    ((∃ r, (WenxinClass.refresh wxSetting (.stream [] false)
        ⟨false, [⟨Role.system, "s", none⟩] ++ [⟨Role.assistant, "A", none⟩]⟩).request
          = some r ∧
        r.messages = formateMessage "wenxin" [⟨Role.system, "s", none⟩]) ∧
     (WenxinClass.refresh wxSetting (.stream [] false)
        ⟨false, [⟨Role.system, "s", none⟩] ++ [⟨Role.assistant, "A", none⟩]⟩).messageList.dropLast
      = formateMessage "wenxin" [⟨Role.system, "s", none⟩] ∧
     (WenxinClass.refresh wxSetting (.stream [] false)
        ⟨false, [⟨Role.system, "s", none⟩] ++ [⟨Role.assistant, "A", none⟩]⟩).messageList.length
      = [(⟨Role.system, "s", none⟩ : Message)].length + 1 ∧
     (([] : List String) = [] → (WenxinClass.refresh wxSetting (.stream [] false)
        ⟨false, [⟨Role.system, "s", none⟩] ++ [⟨Role.assistant, "A", none⟩]⟩).messageList
      = formateMessage "wenxin" [⟨Role.system, "s", none⟩]
        ++ [⟨Role.assistant, "", none⟩])) :=
  ⟨refresh_replays_history.1 none oaSetting [] false
      [⟨Role.user, "q", none⟩] ⟨Role.assistant, "A", none⟩ (by decide) rfl,
   refresh_replays_history.2.2.2.2.1 gmSetting [] false
      [⟨Role.user, "q", none⟩] ⟨Role.assistant, "A", none⟩ (by decide) rfl,
   refresh_replays_history.2.2.2.2.2 wxSetting [] false
      [⟨Role.system, "s", none⟩] ⟨Role.assistant, "A", none⟩ (by decide) rfl⟩
